import Mathlib

set_option maxHeartbeats 1000000

set_option maxRecDepth 100000

/-! Verification of the MuMuAINovel import/export service
(`backend/app/services/import_export_service.py`) and prompt service
(`backend/app/services/prompt_service.py`) against their design
specification.  The Python code is embedded shallowly: JSON documents
become structures with `Option` fields (a missing key is `none`, the
`dict.get` defaults are applied at the use sites exactly as in the
source), the SQLAlchemy session becomes an explicit `Session` value
with committed and pending rows (a `SELECT` sees committed plus pending
rows, modelling autoflush), and database identifiers become `Nat`
(they model non-empty string UUIDs, which are always truthy in
Python). -/

/-! ### Python `dict` model: insertion-ordered association list -/

abbrev PyDict (α : Type) := List (String × α)

def dictHasKey {α : Type} (d : PyDict α) (k : String) : Bool :=
  d.any (fun e => e.1 == k)

def dictGet {α : Type} (d : PyDict α) (k : String) : Option α :=
  (d.find? (fun e => e.1 == k)).map (fun e => e.2)

/-- `d[k] = v`: an existing key keeps its position, a new key is appended. -/
def dictInsert {α : Type} (d : PyDict α) (k : String) (v : α) : PyDict α :=
  if dictHasKey d k then d.map (fun e => if e.1 == k then (k, v) else e)
  else d ++ [(k, v)]

/-! ### Exported-document data model (the JSON payload, §3 of the spec) -/

structure ProjectData where
  title : Option String
  description : Option String
  theme : Option String
  genre : Option String
  target_words : Option Nat
  current_words : Option Nat
  status : Option String
  world_time_period : Option String
  world_location : Option String
  world_atmosphere : Option String
  world_rules : Option String
  chapter_count : Option Nat
  narrative_perspective : Option String
  character_count : Option Nat
  outline_mode : Option String
  user_id : Option Nat
  created_at : Option String
  deriving DecidableEq

structure ChapterData where
  title : Option String
  content : Option String
  summary : Option String
  chapter_number : Option Nat
  word_count : Option Nat
  status : Option String
  created_at : Option String
  outline_title : Option String
  sub_index : Option Nat
  expansion_plan : Option String
  deriving DecidableEq

structure CharacterData where
  name : String
  age : Option Nat
  gender : Option String
  is_organization : Option Bool
  role_type : Option String
  personality : Option String
  background : Option String
  appearance : Option String
  traits : Option String
  organization_type : Option String
  organization_purpose : Option String
  created_at : Option String
  deriving DecidableEq

structure OutlineData where
  title : String
  content : Option String
  structure_field : Option String
  order_index : Option Nat
  created_at : Option String
  deriving DecidableEq

structure RelationshipData where
  source_name : String
  target_name : String
  relationship_name : Option String
  intimacy_level : Option Nat
  status : Option String
  description : Option String
  started_at : Option String
  deriving DecidableEq

structure OrgData where
  character_name : String
  parent_org_name : Option String
  power_level : Option Nat
  member_count : Option Nat
  location : Option String
  motto : Option String
  color : Option String
  deriving DecidableEq

structure OrgMemberData where
  organization_name : String
  character_name : String
  position : Option String
  rank : Option Nat
  status : Option String
  joined_at : Option String
  loyalty : Option Nat
  contribution : Option Nat
  notes : Option String
  deriving DecidableEq

structure WritingStyleData where
  name : String
  style_type : Option String
  preset_id : Option String
  description : Option String
  prompt_content : Option String
  order_index : Option Nat
  deriving DecidableEq

structure GenHistoryData where
  chapter_title : Option String
  prompt : Option String
  generated_content : Option String
  model : Option String
  tokens_used : Option Nat
  generation_time : Option Nat
  created_at : Option String
  deriving DecidableEq

structure Document where
  version : String
  export_time : Option String
  project : Option ProjectData
  chapters : List ChapterData
  characters : List CharacterData
  outlines : List OutlineData
  relationships : List RelationshipData
  organizations : List OrgData
  organization_members : List OrgMemberData
  writing_styles : List WritingStyleData
  generation_history : List GenHistoryData
  deriving DecidableEq

/-! ### Entity-store rows (the ORM models, as written by the import) -/

structure ProjectRow where
  id : Nat
  user_id : Nat
  title : Option String
  description : Option String
  theme : Option String
  genre : Option String
  target_words : Option Nat
  status : Option String
  world_time_period : Option String
  world_location : Option String
  world_atmosphere : Option String
  world_rules : Option String
  chapter_count : Option Nat
  narrative_perspective : Option String
  character_count : Option Nat
  outline_mode : Option String
  current_words : Nat
  wizard_step : Nat
  wizard_status : String
  deriving DecidableEq

structure CharacterRow where
  id : Nat
  project_id : Nat
  name : String
  age : Option Nat
  gender : Option String
  is_organization : Bool
  role_type : Option String
  personality : Option String
  background : Option String
  appearance : Option String
  traits : Option String
  organization_type : Option String
  organization_purpose : Option String
  deriving DecidableEq

structure OutlineRow where
  id : Nat
  project_id : Nat
  title : String
  content : Option String
  structure_field : Option String
  order_index : Option Nat
  deriving DecidableEq

structure ChapterRow where
  project_id : Nat
  title : Option String
  content : Option String
  summary : Option String
  chapter_number : Option Nat
  word_count : Nat
  status : String
  outline_id : Option Nat
  sub_index : Option Nat
  expansion_plan : Option String
  deriving DecidableEq

structure RelationshipRow where
  project_id : Nat
  character_from_id : Nat
  character_to_id : Nat
  relationship_name : Option String
  intimacy_level : Nat
  status : String
  description : Option String
  started_at : Option String
  deriving DecidableEq

structure OrganizationRow where
  id : Nat
  project_id : Nat
  character_id : Nat
  parent_org_id : Option Nat
  power_level : Nat
  member_count : Nat
  location : Option String
  motto : Option String
  color : Option String
  deriving DecidableEq

structure OrganizationMemberRow where
  organization_id : Nat
  character_id : Nat
  position : Option String
  rank : Nat
  status : String
  joined_at : Option String
  loyalty : Nat
  contribution : Nat
  notes : Option String
  deriving DecidableEq

structure WritingStyleRow where
  user_id : Nat
  name : String
  style_type : Option String
  preset_id : Option String
  description : Option String
  prompt_content : Option String
  order_index : Nat
  deriving DecidableEq

structure Store where
  projects : List ProjectRow := []
  characters : List CharacterRow := []
  outlines : List OutlineRow := []
  chapters : List ChapterRow := []
  relationships : List RelationshipRow := []
  organizations : List OrganizationRow := []
  organization_members : List OrganizationMemberRow := []
  writing_styles : List WritingStyleRow := []
  deriving DecidableEq

def emptyStore : Store := {}

/-- One SQLAlchemy `AsyncSession`: committed rows survive a rollback,
pending rows (added since the last commit) do not.  `nextId` models the
id generator; new ids never collide with each other. -/
structure Session where
  committed : Store
  pending : Store
  nextId : Nat
  deriving DecidableEq

def commitSession (s : Session) : Session :=
  { s with
    committed :=
      { projects := s.committed.projects ++ s.pending.projects
        characters := s.committed.characters ++ s.pending.characters
        outlines := s.committed.outlines ++ s.pending.outlines
        chapters := s.committed.chapters ++ s.pending.chapters
        relationships := s.committed.relationships ++ s.pending.relationships
        organizations := s.committed.organizations ++ s.pending.organizations
        organization_members :=
          s.committed.organization_members ++ s.pending.organization_members
        writing_styles := s.committed.writing_styles ++ s.pending.writing_styles }
    pending := emptyStore }

def rollbackSession (s : Session) : Session :=
  { s with pending := emptyStore }

/-- Rows a `SELECT` sees (committed plus autoflushed pending rows). -/
def visProjects (s : Session) : List ProjectRow :=
  s.committed.projects ++ s.pending.projects

def visCharacters (s : Session) : List CharacterRow :=
  s.committed.characters ++ s.pending.characters

def visStyles (s : Session) : List WritingStyleRow :=
  s.committed.writing_styles ++ s.pending.writing_styles

/-! ### Import validator (`validate_import_data`) -/

def SUPPORTED_VERSION : String := "1.0.0"

/-- Python truthiness of an optional string (`None` and `""` are falsy). -/
def truthyStr : Option String → Bool
  | some s => s != ""
  | none => false

structure ImportValidationResult where
  valid : Bool
  version : String
  project_name : String
  statistics : PyDict Nat
  errors : List String
  warnings : List String
  deriving DecidableEq

def validate_import_data (data : Document) : ImportValidationResult :=
  let versionPart : List String × List String :=
    if data.version = "" then (["缺少版本信息"], [])
    else if data.version ≠ SUPPORTED_VERSION then
      ([], ["版本不匹配: 导入文件版本为 " ++ data.version ++
            ", 当前支持版本为 " ++ SUPPORTED_VERSION])
    else ([], [])
  let projectErrors : List String :=
    match data.project with
    | none => ["缺少项目信息"]
    | some p => if truthyStr p.title then [] else ["项目标题不能为空"]
  let statistics : PyDict Nat :=
    [("chapters", data.chapters.length),
     ("characters", data.characters.length),
     ("outlines", data.outlines.length),
     ("relationships", data.relationships.length),
     ("organizations", data.organizations.length),
     ("organization_members", data.organization_members.length),
     ("writing_styles", data.writing_styles.length),
     ("generation_history", data.generation_history.length)]
  let chapterWarnings : List String :=
    if data.chapters.length = 0 then ["项目没有章节数据"] else []
  let characterWarnings : List String :=
    if data.characters.length = 0 then ["项目没有角色数据"] else []
  let project_name : String :=
    match data.project with
    | some p => (p.title).getD "未知项目"
    | none => "未知项目"
  let errors := versionPart.1 ++ projectErrors
  { valid := errors.isEmpty
    version := data.version
    project_name := project_name
    statistics := statistics
    errors := errors
    warnings := versionPart.2 ++ chapterWarnings ++ characterWarnings }

/-! ### Import assembler: the per-entity steps of `import_project` -/

def addProjectRow (s : Session) (r : ProjectRow) : Session :=
  { s with nextId := s.nextId + 1
           pending := { s.pending with projects := s.pending.projects ++ [r] } }

def addCharacterRow (s : Session) (r : CharacterRow) : Session :=
  { s with nextId := s.nextId + 1
           pending := { s.pending with characters := s.pending.characters ++ [r] } }

def addOutlineRow (s : Session) (r : OutlineRow) : Session :=
  { s with nextId := s.nextId + 1
           pending := { s.pending with outlines := s.pending.outlines ++ [r] } }

def addChapterRow (s : Session) (r : ChapterRow) : Session :=
  { s with pending := { s.pending with chapters := s.pending.chapters ++ [r] } }

def addRelationshipRow (s : Session) (r : RelationshipRow) : Session :=
  { s with pending :=
      { s.pending with relationships := s.pending.relationships ++ [r] } }

def addOrgMemberRow (s : Session) (r : OrganizationMemberRow) : Session :=
  { s with pending :=
      { s.pending with organization_members := s.pending.organization_members ++ [r] } }

def addStyleRow (s : Session) (r : WritingStyleRow) : Session :=
  { s with pending :=
      { s.pending with writing_styles := s.pending.writing_styles ++ [r] } }

/-- Project creation inside `import_project` (step 2): the new row belongs to
the target user, forces wizard completion, and keeps the source word count. -/
def createProjectRow (p : ProjectData) (userId : Nat) (s : Session) : Session × Nat :=
  let pid := s.nextId
  let row : ProjectRow :=
    { id := pid
      user_id := userId
      title := p.title
      description := p.description
      theme := p.theme
      genre := p.genre
      target_words := p.target_words
      status := some (p.status.getD "planning")
      world_time_period := p.world_time_period
      world_location := p.world_location
      world_atmosphere := p.world_atmosphere
      world_rules := p.world_rules
      chapter_count := p.chapter_count
      narrative_perspective := p.narrative_perspective
      character_count := p.character_count
      outline_mode := some (p.outline_mode.getD "one-to-many")
      current_words := p.current_words.getD 0
      wizard_step := 4
      wizard_status := "completed" }
  (addProjectRow s row, pid)

/-- `_import_characters`: one row per array element; the returned map keeps,
for each name, the id of the last row created under that name. -/
def mkCharacterRow (projectId : Nat) (rowId : Nat) (c : CharacterData) : CharacterRow :=
  { id := rowId
    project_id := projectId
    name := c.name
    age := c.age
    gender := c.gender
    is_organization := c.is_organization.getD false
    role_type := c.role_type
    personality := c.personality
    background := c.background
    appearance := c.appearance
    traits := c.traits
    organization_type := c.organization_type
    organization_purpose := c.organization_purpose }

def _import_characters (projectId : Nat) (charactersData : List CharacterData)
    (s : Session) (cm : PyDict Nat) : Session × PyDict Nat :=
  match charactersData with
  | [] => (s, cm)
  | c :: rest =>
    _import_characters projectId rest (addCharacterRow s (mkCharacterRow projectId s.nextId c))
      (dictInsert cm c.name s.nextId)

/-- `_import_outlines`: one row per element, title-to-id map built the same way. -/
def mkOutlineRow (projectId : Nat) (rowId : Nat) (ol : OutlineData) : OutlineRow :=
  { id := rowId
    project_id := projectId
    title := ol.title
    content := ol.content
    structure_field := ol.structure_field
    order_index := ol.order_index }

def _import_outlines (projectId : Nat) (outlinesData : List OutlineData)
    (s : Session) (om : PyDict Nat) : Session × PyDict Nat :=
  match outlinesData with
  | [] => (s, om)
  | ol :: rest =>
    _import_outlines projectId rest (addOutlineRow s (mkOutlineRow projectId s.nextId ol))
      (dictInsert om ol.title s.nextId)

def mkChapterRow (projectId : Nat) (outlineMapping : PyDict Nat) (ch : ChapterData) : ChapterRow :=
  { project_id := projectId
    title := ch.title
    content := ch.content
    summary := ch.summary
    chapter_number := ch.chapter_number
    word_count := ch.word_count.getD 0
    status := ch.status.getD "draft"
    outline_id :=
      match ch.outline_title with
      | some t => if t ≠ "" then dictGet outlineMapping t else none
      | none => none
    sub_index := ch.sub_index
    expansion_plan := ch.expansion_plan }

/-- `_import_chapters`: an unresolvable (or falsy) `outline_title` leaves the
chapter's outline reference empty, never failing the chapter. -/
def _import_chapters (projectId : Nat) (chaptersData : List ChapterData)
    (outlineMapping : PyDict Nat) (s : Session) (count : Nat) : Session × Nat :=
  match chaptersData with
  | [] => (s, count)
  | ch :: rest =>
    _import_chapters projectId rest outlineMapping
      (addChapterRow s (mkChapterRow projectId outlineMapping ch)) (count + 1)

def mkRelationshipRow (projectId : Nat) (source_id target_id : Nat)
    (rel : RelationshipData) : RelationshipRow :=
  { project_id := projectId
    character_from_id := source_id
    character_to_id := target_id
    relationship_name := rel.relationship_name
    intimacy_level := rel.intimacy_level.getD 50
    status := rel.status.getD "active"
    description := rel.description
    started_at := rel.started_at }

/-- `_import_relationships`: a row is created only when both endpoint names
resolve in the character map; otherwise the element is silently skipped. -/
def _import_relationships (projectId : Nat) (relationshipsData : List RelationshipData)
    (charMapping : PyDict Nat) (s : Session) (count : Nat) : Session × Nat :=
  match relationshipsData with
  | [] => (s, count)
  | rel :: rest =>
    match dictGet charMapping rel.source_name, dictGet charMapping rel.target_name with
    | some source_id, some target_id =>
      _import_relationships projectId rest charMapping
        (addRelationshipRow s (mkRelationshipRow projectId source_id target_id rel)) (count + 1)
    | _, _ => _import_relationships projectId rest charMapping s count

/-- `SELECT ... WHERE Character.id == i` with `scalar_one_or_none.`
Store ids are unique, so first-match lookup is exact. -/
def findCharById (chars : List CharacterRow) (i : Nat) : Option CharacterRow :=
  chars.find? (fun c => c.id == i)

def mkOrganizationRow (projectId : Nat) (rowId : Nat) (char_id : Nat)
    (od : OrgData) : OrganizationRow :=
  { id := rowId
    project_id := projectId
    character_id := char_id
    parent_org_id := none
    power_level := od.power_level.getD 50
    member_count := od.member_count.getD 0
    location := od.location
    motto := od.motto
    color := od.color }

/-- Pass one of `_import_organizations`: create a row for every element whose
`character_name` resolves, remembering the raw `parent_org_name` beside it. -/
def orgPassOne (projectId : Nat) (organizationsData : List OrgData)
    (charMapping : PyDict Nat) (nextId : Nat) :
    List (OrganizationRow × Option String) × Nat :=
  match organizationsData with
  | [] => ([], nextId)
  | od :: rest =>
    match dictGet charMapping od.character_name with
    | some char_id =>
      let tail := orgPassOne projectId rest charMapping (nextId + 1)
      ((mkOrganizationRow projectId nextId char_id od, od.parent_org_name) :: tail.1, tail.2)
    | none => orgPassOne projectId rest charMapping nextId

/-- The name-to-id map of `_import_organizations`: each created row's owning
character name (re-derived through the store) keyed to the new org id. -/
def orgBuildMapping (tempOrgs : List (OrganizationRow × Option String))
    (chars : List CharacterRow) (om : PyDict Nat) : PyDict Nat :=
  match tempOrgs with
  | [] => om
  | (org, _) :: rest =>
    match findCharById chars org.character_id with
    | some ch => orgBuildMapping rest chars (dictInsert om ch.name org.id)
    | none => orgBuildMapping rest chars om

/-- Pass two of `_import_organizations`: assign the parent reference for every
row whose truthy `parent_org_name` resolves in the map built after pass one. -/
def orgPassTwo (tempOrgs : List (OrganizationRow × Option String))
    (orgMapping : PyDict Nat) : List OrganizationRow :=
  tempOrgs.map (fun e =>
    match e.2 with
    | some parent_name =>
      if parent_name ≠ "" then
        match dictGet orgMapping parent_name with
        | some parent_id => { e.1 with parent_org_id := some parent_id }
        | none => e.1
      else e.1
    | none => e.1)

/-- `_import_organizations`: two-pass creation.  The parent assignments of
pass two happen on pending ORM objects before any commit, so the session
receives the finalized rows. -/
def _import_organizations (projectId : Nat) (organizationsData : List OrgData)
    (charMapping : PyDict Nat) (s : Session) : Session × PyDict Nat :=
  let passOne := orgPassOne projectId organizationsData charMapping s.nextId
  let orgMapping := orgBuildMapping passOne.1 (visCharacters s) []
  let finalRows := orgPassTwo passOne.1 orgMapping
  ({ s with nextId := passOne.2
            pending := { s.pending with
              organizations := s.pending.organizations ++ finalRows } },
   orgMapping)

def mkOrgMemberRow (org_id char_id : Nat) (md : OrgMemberData) : OrganizationMemberRow :=
  { organization_id := org_id
    character_id := char_id
    position := md.position
    rank := md.rank.getD 0
    status := md.status.getD "active"
    joined_at := md.joined_at
    loyalty := md.loyalty.getD 50
    contribution := md.contribution.getD 0
    notes := md.notes }

/-- `_import_organization_members`: both the organization name and the member
character name must resolve, or the element is skipped. -/
def _import_organization_members (orgMembersData : List OrgMemberData)
    (charMapping : PyDict Nat) (orgMapping : PyDict Nat) (s : Session)
    (count : Nat) : Session × Nat :=
  match orgMembersData with
  | [] => (s, count)
  | md :: rest =>
    match dictGet orgMapping md.organization_name,
          dictGet charMapping md.character_name with
    | some org_id, some char_id =>
      _import_organization_members rest charMapping orgMapping
        (addOrgMemberRow s (mkOrgMemberRow org_id char_id md)) (count + 1)
    | _, _ => _import_organization_members rest charMapping orgMapping s count

/-- `scalar_one_or_none`: zero rows give `none`, one row gives it, several
rows raise `MultipleResultsFound`. -/
def scalarOneOrNone {α : Type} (l : List α) : Except String (Option α) :=
  match l with
  | [] => .ok none
  | [a] => .ok (some a)
  | _ => .error "Multiple rows were found when exactly one or none was required"

def mkStyleRow (userId : Nat) (w : WritingStyleData) : WritingStyleRow :=
  { user_id := userId
    name := w.name
    style_type := w.style_type
    preset_id := w.preset_id
    description := w.description
    prompt_content := w.prompt_content
    order_index := w.order_index.getD 0 }

/-- The per-style loop of `_import_writing_styles`: skip any style whose
(user, name) pair already exists, otherwise create it.  An exception carries
the session state at the point it was raised. -/
def importStylesLoop (userId : Nat) (stylesData : List WritingStyleData)
    (s : Session) (count : Nat) : Except (String × Session) (Session × Nat) :=
  match stylesData with
  | [] => .ok (s, count)
  | w :: rest =>
    match scalarOneOrNone ((visStyles s).filter
        (fun st => st.user_id == userId && st.name == w.name)) with
    | .error e => .error (e, s)
    | .ok (some _) => importStylesLoop userId rest s count
    | .ok none =>
      importStylesLoop userId rest (addStyleRow s (mkStyleRow userId w)) (count + 1)

/-- `_import_writing_styles`: resolve the owning user through the (pending)
project row, then deduplicate by (user, style name). -/
def _import_writing_styles (projectId : Nat) (stylesData : List WritingStyleData)
    (s : Session) : Except (String × Session) (Session × Nat) :=
  match scalarOneOrNone ((visProjects s).filter (fun p => p.id == projectId)) with
  | .error e => .error (e, s)
  | .ok none => .ok (s, 0)
  | .ok (some proj) => importStylesLoop proj.user_id stylesData s 0

/-! ### `import_project`: the whole transactional pipeline.

Exceptions are modelled explicitly: `failAt` injects a storage exception at
the named step (covering "any exception raised at any step"; a fault in the
middle of a step is observationally the same as one at its start, since
per-category statistics are recorded only after a step completes and a
rollback discards all pending rows), and the writing-style step can raise
organically through `scalar_one_or_none`.  The `except` handler rolls the
session back and returns a failure result instead of re-raising. -/

inductive ImportStep where
  | createProject
  | characters
  | outlines
  | chapters
  | relationships
  | organizations
  | orgMembers
  | writingStyles
  | commitStep
  deriving DecidableEq

structure ImportResult where
  success : Bool
  project_id : Option Nat
  message : String
  statistics : PyDict Nat
  warnings : List String
  deriving DecidableEq

/-- The body of the `try` block of `import_project` after validation.
An error carries the exception text, the statistics accumulated so far, and
the session state at the point of the exception. -/
def importBody (data : Document) (s : Session) (userId : Nat)
    (warnings : List String) (failAt : Option ImportStep) :
    Except (String × PyDict Nat × Session) (Session × ImportResult) :=
  if failAt = some ImportStep.createProject then .error ("注入的存储异常", [], s) else
  match data.project with
  | none => .error ("KeyError: project", [], s)
  | some projectData =>
    let created := createProjectRow projectData userId s
    let s1 := created.1
    let pid := created.2
    if failAt = some ImportStep.characters then .error ("注入的存储异常", [], s1) else
    let charStep := _import_characters pid data.characters s1 []
    let s2 := charStep.1
    let charMapping := charStep.2
    let stats1 := dictInsert [] "characters" charMapping.length
    if failAt = some ImportStep.outlines then .error ("注入的存储异常", stats1, s2) else
    let outlineStep := _import_outlines pid data.outlines s2 []
    let s3 := outlineStep.1
    let outlineMapping := outlineStep.2
    let stats2 := dictInsert stats1 "outlines" outlineMapping.length
    if failAt = some ImportStep.chapters then .error ("注入的存储异常", stats2, s3) else
    let chapterStep := _import_chapters pid data.chapters outlineMapping s3 0
    let s4 := chapterStep.1
    let stats3 := dictInsert stats2 "chapters" chapterStep.2
    if failAt = some ImportStep.relationships then .error ("注入的存储异常", stats3, s4) else
    let relStep := _import_relationships pid data.relationships charMapping s4 0
    let s5 := relStep.1
    let stats4 := dictInsert stats3 "relationships" relStep.2
    if failAt = some ImportStep.organizations then .error ("注入的存储异常", stats4, s5) else
    let orgStep := _import_organizations pid data.organizations charMapping s5
    let s6 := orgStep.1
    let orgMapping := orgStep.2
    let stats5 := dictInsert stats4 "organizations" orgMapping.length
    if failAt = some ImportStep.orgMembers then .error ("注入的存储异常", stats5, s6) else
    let memberStep := _import_organization_members data.organization_members
      charMapping orgMapping s6 0
    let s7 := memberStep.1
    let stats6 := dictInsert stats5 "organization_members" memberStep.2
    if failAt = some ImportStep.writingStyles then .error ("注入的存储异常", stats6, s7) else
    match _import_writing_styles pid data.writing_styles s7 with
    | .error es => .error (es.1, stats6, es.2)
    | .ok styleStep =>
      let s8 := styleStep.1
      let stats7 := dictInsert stats6 "writing_styles" styleStep.2
      if failAt = some ImportStep.commitStep then .error ("注入的存储异常", stats7, s8) else
      let s9 := commitSession s8
      .ok (s9, { success := true
                 project_id := some pid
                 message := "项目导入成功"
                 statistics := stats7
                 warnings := warnings })

/-- `import_project`: validate, run the pipeline inside one transaction and,
on any exception, roll back and return a failure result carrying the partial
statistics instead of raising to the caller. -/
def import_project (data : Document) (s : Session) (userId : Nat)
    (failAt : Option ImportStep) : Session × ImportResult :=
  let validation := validate_import_data data
  if validation.valid = false then
    (s, { success := false
          project_id := none
          message := "数据验证失败: " ++ String.intercalate ", " validation.errors
          statistics := []
          warnings := validation.warnings })
  else
    match importBody data s userId validation.warnings failAt with
    | .ok r => r
    | .error e =>
      (rollbackSession e.2.2,
       { success := false
         project_id := none
         message := "导入失败: " ++ e.1
         statistics := e.2.1
         warnings := validation.warnings })

/-! ### Prompt template registry (`prompt_service.py`)

`str.format` is modelled over the template's character list: `{{` and `}}`
are brace escapes and `{name}` is a named placeholder whose field text runs
to the closing brace (the repository's templates only use plain named
fields).  A placeholder whose key is missing raises `KeyError`, which
`format_prompt` converts to a `ValueError` naming the key; the structured
`FormatError.missingKey` carries that name. -/

def lbrace : Char := Char.ofNat 123

def rbrace : Char := Char.ofNat 125

structure GenreStrategy where
  keywords : List String
  instruction : String
  deriving DecidableEq

def GENRE_STRATEGIES : List (String × GenreStrategy) := [
  ("history",
   { keywords := ["历史", "权谋", "架空历史", "穿越", "三国", "大秦", "大明"]
     instruction := "\n【长篇驱动模式：推演与势】\n- 核心动力：从\"棋子\"到\"棋手\"的转变，积蓄力量 -> 改变大势 -> 遭遇反噬 -> 建立新秩序。\n- 关键节点：\n  * 100万字：必须完成阶级跨越，成为一方诸侯或朝堂大佬。\n  * 300万字：必须涉及改朝换代或文明路线的分歧（如：工业革命 vs 传统皇权）。\n- 爽点来源：种田建设的成就感、运筹帷幄的智商碾压、改变历史意难平。\n- 写作风格：厚重、考究。多用侧面描写烘托大势，对话需符合时代阶级特征，权谋要草蛇灰线。\n" }),
  ("scifi",
   { keywords := ["科幻", "星际", "赛博朋克", "末世", "机甲", "未来"]
     instruction := "\n【长篇驱动模式：尺度跃迁】\n- 核心动力：技术奇点与文明冲突，从\"行星地表\"走向\"宇宙深空\"。\n- 关键节点：\n  * 100万字：接触第一类外星文明或完成关键技术飞跃（如可控核聚变）。\n  * 300万字：涉及维度战争、宇宙社会学或时间悖论。\n  * 500万字：探讨存在意义、创世/灭世的哲学命题。\n- 写作风格：冷峻、理性。注重技术细节的逻辑自洽（Hard Sci-Fi）或社会学推演（Soft Sci-Fi）。\n" }),
  ("supernatural",
   { keywords := ["灵异", "惊悚", "恐怖", "神秘复苏", "克苏鲁", "怪谈"]
     instruction := "\n【长篇驱动模式：拼图与规则】\n- 核心动力：从\"求生者\"变为\"驾驭者\"，建立自己的势力/禁区。\n- 关键节点：\n  * 100万字：主角建立安全区/驭鬼者组织。\n  * 300万字：世界观彻底崩坏，从解决灵异事件变成对抗末日/旧日支配者。\n- 恐怖维持：随着主角变强，恐怖源从\"具体的鬼\"升级为\"无法理解的规则\"或\"因果律\"。\n- 写作风格：压抑、诡谲。多用环境描写烘托氛围，强调未知的恐惧，少用热血词汇。\n" }),
  ("suspense",
   { keywords := ["悬疑", "刑侦", "推理", "侦探", "犯罪"]
     instruction := "\n【长篇驱动模式：剥洋葱引擎】\n- 核心动力：案中案，局中局，阴谋的无限嵌套。\n- 关键节点：\n  * 100万字：揭开第一个大BOSS，却发现他只是某个庞大组织的棋子。\n  * 300万字：主角发现自己也是阴谋的一部分（身世之谜/记忆修改）。\n- 续航关键：永远不要让读者看到真相的全貌，每解决一个谜题，要引出两个新谜题。\n- 写作风格：紧凑、高智商。强调逻辑链条，伏笔回收必须严丝合缝，反转要震撼。\n" }),
  ("western_fantasy",
   { keywords := ["西幻", "奇幻", "DND", "魔法", "龙与地下城", "领主"]
     instruction := "\n【长篇驱动模式：史诗构建】\n- 核心动力：探索地图 + 收集神器 + 阵营战争 + 封神之路。\n- 关键节点：\n  * 100万字：完成小队集结，解决王国危机/深渊入侵。\n  * 300万字：点燃神火，参与位面战争/深渊血战。\n  * 500万字：建立神系，重塑晶壁系规则。\n- 写作风格：史诗感、咏叹调。注重种族习俗、宗教历史、魔法原理的深度描写。\n" }),
  ("eastern_fantasy",
   { keywords := ["玄幻", "仙侠", "修真", "高武", "洪荒", "东方玄幻"]
     instruction := "\n【长篇驱动模式：位面飞升】\n- 核心动力：生命层次的进化，换地图（新手村->主城->新位面->神界）。\n- 关键节点：\n  * 100万字：称霸本位面/人界，准备飞升。\n  * 300万字：在更高位面建立宗门/天庭，参与大道之争。\n- 爽点来源：境界突破、宝物争夺、跨阶杀敌、众生膜拜。\n- 写作风格：热血、宏大。强调战斗画面的破坏力，等级森严的社会结构。\n" }),
  ("urban",
   { keywords := ["都市", "言情", "职场", "现实", "生活", "娱乐", "重生", "神豪", "校花"]
     instruction := "\n【长篇驱动模式：圈层与欲望】\n- 核心动力：社会地位的提升、财富/权力的积累、情感的圆满。\n- 关键节点：\n  * 50万字（积累期）：第一桶金，初识关键人脉，解决生存危机。\n  * 200万字（扩张期）：行业博弈，资本运作，确立行业地位。\n  * 500万字（巅峰期）：改变世界/行业规则，从棋子变成棋手。\n- 写作重点：\n  * 去翻译腔：对话符合当代口语，多用潜台词。\n  * 细节质感：具体描写品牌、车型、食物、穿搭，增加真实感。\n  * 爽点：并非单纯打脸，而是通过\"人脉网\"和\"资源调动\"降维打击对手。\n" })
]

/-- `needle` is a prefix of `haystack` (character-exact, as Python `str.startswith`). -/
def listStartsWith : List Char → List Char → Bool
  | [], _ => true
  | _ :: _, [] => false
  | a :: as, b :: bs => a == b && listStartsWith as bs

/-- Python `needle in haystack` on strings: contiguous substring search. -/
def listIsSubstr (needle : List Char) : List Char → Bool
  | [] => needle.isEmpty
  | c :: rest => listStartsWith needle (c :: rest) || listIsSubstr needle rest

def py_in (needle haystack : String) : Bool :=
  listIsSubstr needle.toList haystack.toList

/-- Python `str.lower` on the relevant domain (ASCII plus CJK, which has no
case): character-wise ASCII lowercasing.  (`String.toLower` itself does the
same mapping but is not kernel-reducible.) -/
def py_lower (s : String) : String :=
  String.mk (s.toList.map Char.toLower)

/-- The keyword scan of `_get_genre_strategy`: first matching table entry
wins.  Only the genre is lowercased; the keywords are compared verbatim. -/
def genreMatchLoop (table : List (String × GenreStrategy)) (genreLower : String) : String :=
  match table with
  | [] => ""
  | e :: rest =>
    if e.2.keywords.any (fun kw => py_in kw genreLower) then e.2.instruction
    else genreMatchLoop rest genreLower

def _get_genre_strategy (genre : String) : String :=
  if genre = "" then "" else genreMatchLoop GENRE_STRATEGIES (py_lower genre)

inductive FormatError where
  | missingKey (key : String)
  | singleOpen
  | singleClose
  deriving DecidableEq

/-- Scan a placeholder's field text up to the closing brace. -/
def splitField (l : List Char) : Option (List Char × List Char) :=
  match l with
  | [] => none
  | c :: rest =>
    if c = rbrace then some ([], rest)
    else
      match splitField rest with
      | some p => some (c :: p.1, p.2)
      | none => none

theorem splitField_length :
    ∀ {l k r : List Char}, splitField l = some (k, r) → r.length < l.length := by
  intro l
  induction l with
  | nil => intro k r h; simp [splitField] at h
  | cons c rest ih =>
    intro k r h
    simp only [splitField] at h
    by_cases hc : c = rbrace
    · rw [if_pos hc] at h
      simp only [Option.some.injEq, Prod.mk.injEq] at h
      rw [← h.2]
      exact Nat.lt_succ_self _
    · rw [if_neg hc] at h
      cases hsf : splitField rest with
      | none => rw [hsf] at h; simp at h
      | some p =>
        rw [hsf] at h
        simp only [Option.some.injEq, Prod.mk.injEq] at h
        have := ih hsf
        rw [← h.2]
        exact Nat.lt_trans this (Nat.lt_succ_self _)

/-- `template.format(**params)` over the character list.  The recursion
consumes at least one character per step, so running it with the character
count as (structural) fuel is exact: the zero-fuel branch is unreachable
for the entry point below. -/
def pyFormatFuel (params : PyDict String) : Nat → List Char → Except FormatError (List Char)
  | _, [] => .ok []
  | 0, _ :: _ => .error .singleOpen
  | fuel + 1, c :: rest =>
    if c = lbrace then
      match rest with
      | c2 :: rest2 =>
        if c2 = lbrace then
          match pyFormatFuel params fuel rest2 with
          | .ok out => .ok (lbrace :: out)
          | .error e => .error e
        else
          match splitField (c2 :: rest2) with
          | some kr =>
            match dictGet params (String.mk kr.1) with
            | some v =>
              match pyFormatFuel params fuel kr.2 with
              | .ok out => .ok (v.toList ++ out)
              | .error e => .error e
            | none => .error (.missingKey (String.mk kr.1))
          | none => .error .singleOpen
      | [] => .error .singleOpen
    else if c = rbrace then
      match rest with
      | c2 :: rest2 =>
        if c2 = rbrace then
          match pyFormatFuel params fuel rest2 with
          | .ok out => .ok (rbrace :: out)
          | .error e => .error e
        else .error .singleClose
      | [] => .error .singleClose
    else
      match pyFormatFuel params fuel rest with
      | .ok out => .ok (c :: out)
      | .error e => .error e

def pyFormatList (params : PyDict String) (l : List Char) : Except FormatError (List Char) :=
  pyFormatFuel params l.length l

/-- The placeholder keys a template references, in order; `none` when the
template is not well formed (an unmatched single brace). -/
def templateRefsFuel : Nat → List Char → Option (List String)
  | _, [] => some []
  | 0, _ :: _ => none
  | fuel + 1, c :: rest =>
    if c = lbrace then
      match rest with
      | c2 :: rest2 =>
        if c2 = lbrace then templateRefsFuel fuel rest2
        else
          match splitField (c2 :: rest2) with
          | some kr => (templateRefsFuel fuel kr.2).map (fun ks => String.mk kr.1 :: ks)
          | none => none
      | [] => none
    else if c = rbrace then
      match rest with
      | c2 :: rest2 => if c2 = rbrace then templateRefsFuel fuel rest2 else none
      | [] => none
    else templateRefsFuel fuel rest

def templateRefs (l : List Char) : Option (List String) :=
  templateRefsFuel l.length l

/-- The automatic injection at the top of `format_prompt`: when the call
supplies a genre but no explicit strategy, derive one from the table. -/
def injectGenreStrategy (kwargs : PyDict String) : PyDict String :=
  if dictHasKey kwargs "genre" && !(dictHasKey kwargs "genre_strategy") then
    dictInsert kwargs "genre_strategy"
      (_get_genre_strategy ((dictGet kwargs "genre").getD ""))
  else kwargs

def format_prompt (template : String) (kwargs : PyDict String) :
    Except FormatError String :=
  let kwargs2 := injectGenreStrategy kwargs
  match pyFormatList kwargs2 template.toList with
  | .ok out => .ok (String.mk out)
  | .error e => .error e

/-! ### Basic lemmas about the dict model -/

theorem find?_append_eq {α : Type} (l₁ l₂ : List α) (p : α → Bool) :
    (l₁ ++ l₂).find? p =
      (match l₁.find? p with
       | some x => some x
       | none => l₂.find? p) := by
  induction l₁ with
  | nil => simp
  | cons a rest ih =>
    by_cases ha : p a = true
    · simp [List.find?_cons_of_pos _ ha, ha]
    · have ha' : p a = false := by simpa using ha
      rw [List.cons_append, List.find?_cons_of_neg _ (by simp [ha']),
        List.find?_cons_of_neg _ (by simp [ha'])]
      exact ih

theorem find?_eq_some_of_unique {α : Type} {p : α → Bool} {l : List α} {x : α}
    (hx : x ∈ l) (hpx : p x = true)
    (huniq : ∀ y ∈ l, p y = true → y = x) : l.find? p = some x := by
  induction l with
  | nil => cases hx
  | cons a rest ih =>
    by_cases ha : p a = true
    · rw [List.find?_cons_of_pos _ ha]
      exact congrArg some (huniq a (List.mem_cons_self a rest) ha)
    · rw [List.find?_cons_of_neg _ (by simpa using ha)]
      rcases List.mem_cons.mp hx with h | h
      · exact absurd (h ▸ hpx) ha
      · exact ih h (fun y hy hpy => huniq y (List.mem_cons_of_mem _ hy) hpy)

theorem eq_of_mem_map_nodup {α β : Type} {f : α → β} {l : List α}
    (h : (l.map f).Nodup) {x y : α} (hx : x ∈ l) (hy : y ∈ l)
    (hf : f x = f y) : x = y := by
  induction l with
  | nil => cases hx
  | cons a rest ih =>
    rw [List.map_cons, List.nodup_cons] at h
    rcases List.mem_cons.mp hx with h1 | h1 <;> rcases List.mem_cons.mp hy with h2 | h2
    · rw [h1, h2]
    · exfalso
      apply h.1
      rw [← h1, hf]
      exact List.mem_map_of_mem f h2
    · exfalso
      apply h.1
      rw [← h2, ← hf]
      exact List.mem_map_of_mem f h1
    · exact ih h.2 h1 h2

theorem dictHasKey_iff {α : Type} (d : PyDict α) (k : String) :
    dictHasKey d k = true ↔ ∃ e ∈ d, e.1 = k := by
  simp [dictHasKey, List.any_eq_true, beq_iff_eq]

theorem dictGet_eq_none_iff {α : Type} (d : PyDict α) (k : String) :
    dictGet d k = none ↔ ∀ e ∈ d, e.1 ≠ k := by
  simp [dictGet, List.find?_eq_none, beq_iff_eq]

theorem dictGet_isSome_iff_hasKey {α : Type} (d : PyDict α) (k : String) :
    (dictGet d k).isSome = dictHasKey d k := by
  by_cases h : dictHasKey d k = true
  · rw [h]
    rcases (dictHasKey_iff d k).mp h with ⟨e, he, hek⟩
    cases hf : (dictGet d k) with
    | some v => rfl
    | none => exact absurd hek ((dictGet_eq_none_iff d k).mp hf e he)
  · have h' : dictHasKey d k = false := by simpa using h
    rw [h']
    have : dictGet d k = none := by
      rw [dictGet_eq_none_iff]
      intro e he hek
      exact h ((dictHasKey_iff d k).mpr ⟨e, he, hek⟩)
    rw [this]
    rfl

theorem mem_of_dictGet {α : Type} {d : PyDict α} {k : String} {v : α}
    (h : dictGet d k = some v) : (k, v) ∈ d := by
  unfold dictGet at h
  cases hf : d.find? (fun e => e.1 == k) with
  | none => rw [hf] at h; cases h
  | some e =>
    rw [hf] at h
    have hp := List.find?_some hf
    have hm : e ∈ d := List.mem_of_find?_eq_some hf
    have hv : e.2 = v := by simpa using h
    have hk : e.1 = k := by simpa using hp
    have hkv : (k, v) = e := by
      rw [← hk, ← hv]
    rw [hkv]
    exact hm

theorem dictGet_of_mem_nodup {α : Type} {d : PyDict α} {k : String} {v : α}
    (hnd : (d.map Prod.fst).Nodup) (hm : (k, v) ∈ d) : dictGet d k = some v := by
  unfold dictGet
  rw [find?_eq_some_of_unique hm (by simp)
    (fun y hy hpy => eq_of_mem_map_nodup hnd hy hm (by simpa using hpy))]
  rfl

theorem dictGet_insert_self {α : Type} (d : PyDict α) (k : String) (v : α) :
    dictGet (dictInsert d k v) k = some v := by
  unfold dictInsert
  by_cases h : dictHasKey d k = true
  · rw [if_pos h]
    induction d with
    | nil => simp [dictHasKey] at h
    | cons e rest ih =>
      by_cases he : e.1 = k
      · simp [dictGet, List.find?_cons_of_pos, he]
      · have hr : dictHasKey rest k = true := by
          rcases (dictHasKey_iff _ k).mp h with ⟨e', he', hek⟩
          rcases List.mem_cons.mp he' with h1 | h1
          · exact absurd (h1 ▸ hek) he
          · exact (dictHasKey_iff _ k).mpr ⟨e', h1, hek⟩
        have := ih hr
        simpa [dictGet, List.map_cons, List.find?_cons_of_neg, he] using this
  · rw [if_neg h]
    have hnone : d.find? (fun e => e.1 == k) = none := by
      rw [List.find?_eq_none]
      intro e he
      simp only [beq_iff_eq]
      exact fun hek => h ((dictHasKey_iff d k).mpr ⟨e, he, hek⟩)
    simp [dictGet, find?_append_eq, hnone]

theorem dictGet_insert_ne {α : Type} (d : PyDict α) (k k' : String) (v : α)
    (h : k' ≠ k) : dictGet (dictInsert d k v) k' = dictGet d k' := by
  have hkk' : ((k : String) == k') = false :=
    beq_eq_false_iff_ne.mpr (fun hh => h hh.symm)
  unfold dictInsert
  by_cases hk : dictHasKey d k = true
  · rw [if_pos hk]
    clear hk
    induction d with
    | nil => rfl
    | cons e rest ih =>
      rw [List.map_cons]
      by_cases he : (e.1 == k) = true
      · rw [if_pos he]
        have he1 : e.1 = k := by simpa using he
        have he2 : (e.1 == k') = false := by rw [he1]; exact hkk'
        unfold dictGet
        simp only [List.find?_cons, hkk', he2]
        exact ih
      · rw [if_neg he]
        unfold dictGet
        simp only [List.find?_cons]
        by_cases he' : (e.1 == k') = true
        · simp only [he']
        · have he2 : (e.1 == k') = false := by simpa using he'
          simp only [he2]
          exact ih
  · rw [if_neg hk]
    unfold dictGet
    rw [find?_append_eq]
    cases hf : d.find? (fun e => e.1 == k') with
    | some e => simp
    | none => simp [List.find?, hkk']

theorem dictReplace_keys {α : Type} (d : PyDict α) (k : String) (v : α) :
    (d.map (fun e => if (e.1 == k) = true then (k, v) else e)).map Prod.fst =
      d.map Prod.fst := by
  induction d with
  | nil => rfl
  | cons e rest ih =>
    by_cases he : (e.1 == k) = true
    · have he1 : e.1 = k := by simpa using he
      simp only [List.map_cons, if_pos he, ih]
      rw [he1]
    · simp only [List.map_cons, if_neg he, ih]

theorem dictInsert_length {α : Type} (d : PyDict α) (k : String) (v : α) :
    (dictInsert d k v).length =
      if dictHasKey d k = true then d.length else d.length + 1 := by
  by_cases h : dictHasKey d k = true <;> simp [dictInsert, h]

theorem dictInsert_keys {α : Type} (d : PyDict α) (k : String) (v : α) :
    (dictInsert d k v).map Prod.fst =
      if dictHasKey d k = true then d.map Prod.fst else d.map Prod.fst ++ [k] := by
  by_cases h : dictHasKey d k = true
  · rw [if_pos h]
    unfold dictInsert
    rw [if_pos h]
    exact dictReplace_keys d k v
  · rw [if_neg h]
    unfold dictInsert
    rw [if_neg h]
    simp

theorem truthyStr_iff (o : Option String) :
    truthyStr o = true ↔ ∃ t, o = some t ∧ t ≠ "" := by
  cases o <;> simp [truthyStr]

/-! ### Characterizations of the import steps -/

def charRowsFrom (projectId : Nat) (l : List CharacterData) (nid : Nat) : List CharacterRow :=
  match l with
  | [] => []
  | c :: rest => mkCharacterRow projectId nid c :: charRowsFrom projectId rest (nid + 1)

def charMapFrom (cm : PyDict Nat) (l : List CharacterData) (nid : Nat) : PyDict Nat :=
  match l with
  | [] => cm
  | c :: rest => charMapFrom (dictInsert cm c.name nid) rest (nid + 1)

theorem import_characters_eq (projectId : Nat) (l : List CharacterData) :
    ∀ (s : Session) (cm : PyDict Nat),
      _import_characters projectId l s cm =
        ({ s with
            nextId := s.nextId + l.length
            pending := { s.pending with characters :=
              s.pending.characters ++ charRowsFrom projectId l s.nextId } },
         charMapFrom cm l s.nextId) := by
  induction l with
  | nil =>
    intro s cm
    simp [_import_characters, charRowsFrom, charMapFrom]
  | cons c rest ih =>
    intro s cm
    rw [_import_characters, ih]
    simp [addCharacterRow, charRowsFrom, charMapFrom, List.length_cons,
      Nat.add_comm, Nat.add_assoc, Nat.add_left_comm]

def outlineRowsFrom (projectId : Nat) (l : List OutlineData) (nid : Nat) : List OutlineRow :=
  match l with
  | [] => []
  | ol :: rest => mkOutlineRow projectId nid ol :: outlineRowsFrom projectId rest (nid + 1)

def outlineMapFrom (om : PyDict Nat) (l : List OutlineData) (nid : Nat) : PyDict Nat :=
  match l with
  | [] => om
  | ol :: rest => outlineMapFrom (dictInsert om ol.title nid) rest (nid + 1)

theorem import_outlines_eq (projectId : Nat) (l : List OutlineData) :
    ∀ (s : Session) (om : PyDict Nat),
      _import_outlines projectId l s om =
        ({ s with
            nextId := s.nextId + l.length
            pending := { s.pending with outlines :=
              s.pending.outlines ++ outlineRowsFrom projectId l s.nextId } },
         outlineMapFrom om l s.nextId) := by
  induction l with
  | nil =>
    intro s om
    simp [_import_outlines, outlineRowsFrom, outlineMapFrom]
  | cons ol rest ih =>
    intro s om
    rw [_import_outlines, ih]
    simp [addOutlineRow, outlineRowsFrom, outlineMapFrom, List.length_cons,
      Nat.add_comm, Nat.add_assoc, Nat.add_left_comm]

theorem import_chapters_eq (projectId : Nat) (l : List ChapterData)
    (outlineMapping : PyDict Nat) :
    ∀ (s : Session) (count : Nat),
      _import_chapters projectId l outlineMapping s count =
        ({ s with
            pending := { s.pending with chapters :=
              s.pending.chapters ++ l.map (mkChapterRow projectId outlineMapping) } },
         count + l.length) := by
  induction l with
  | nil =>
    intro s count
    simp [_import_chapters]
  | cons ch rest ih =>
    intro s count
    rw [_import_chapters, ih]
    simp [addChapterRow, List.length_cons,
      Nat.add_comm, Nat.add_assoc, Nat.add_left_comm]

/-- Both endpoints of a relationship element resolve in the character map. -/
def relResolvable (charMapping : PyDict Nat) (rel : RelationshipData) : Bool :=
  (dictGet charMapping rel.source_name).isSome &&
  (dictGet charMapping rel.target_name).isSome

def mkRelRowOf (projectId : Nat) (charMapping : PyDict Nat)
    (rel : RelationshipData) : RelationshipRow :=
  mkRelationshipRow projectId ((dictGet charMapping rel.source_name).getD 0)
    ((dictGet charMapping rel.target_name).getD 0) rel

theorem import_relationships_eq (projectId : Nat) (l : List RelationshipData)
    (charMapping : PyDict Nat) :
    ∀ (s : Session) (count : Nat),
      _import_relationships projectId l charMapping s count =
        ({ s with
            pending := { s.pending with relationships :=
              s.pending.relationships ++
                (l.filter (relResolvable charMapping)).map (mkRelRowOf projectId charMapping) } },
         count + (l.filter (relResolvable charMapping)).length) := by
  induction l with
  | nil =>
    intro s count
    simp [_import_relationships]
  | cons rel rest ih =>
    intro s count
    rw [_import_relationships]
    cases hs : dictGet charMapping rel.source_name with
    | none =>
      rw [ih]
      have hres : relResolvable charMapping rel = false := by
        simp [relResolvable, hs]
      simp [hres]
    | some source_id =>
      cases ht : dictGet charMapping rel.target_name with
      | none =>
        rw [ih]
        have hres : relResolvable charMapping rel = false := by
          simp [relResolvable, ht]
        simp [hres]
      | some target_id =>
        have hres : relResolvable charMapping rel = true := by
          simp [relResolvable, hs, ht]
        simp only [ih]
        simp [hres, addRelationshipRow, mkRelRowOf, hs, ht,
          Nat.add_comm, Nat.add_assoc, Nat.add_left_comm]

/-- Both cross-references of a membership element resolve. -/
def memberResolvable (charMapping orgMapping : PyDict Nat) (md : OrgMemberData) : Bool :=
  (dictGet orgMapping md.organization_name).isSome &&
  (dictGet charMapping md.character_name).isSome

def mkMemberRowOf (charMapping orgMapping : PyDict Nat)
    (md : OrgMemberData) : OrganizationMemberRow :=
  mkOrgMemberRow ((dictGet orgMapping md.organization_name).getD 0)
    ((dictGet charMapping md.character_name).getD 0) md

theorem import_org_members_eq (l : List OrgMemberData)
    (charMapping orgMapping : PyDict Nat) :
    ∀ (s : Session) (count : Nat),
      _import_organization_members l charMapping orgMapping s count =
        ({ s with
            pending := { s.pending with organization_members :=
              s.pending.organization_members ++ (l.filter (memberResolvable charMapping orgMapping)).map (mkMemberRowOf charMapping orgMapping) } },
         count + (l.filter (memberResolvable charMapping orgMapping)).length) := by
  induction l with
  | nil =>
    intro s count
    simp [_import_organization_members]
  | cons md rest ih =>
    intro s count
    rw [_import_organization_members]
    cases ho : dictGet orgMapping md.organization_name with
    | none =>
      rw [ih]
      have hres : memberResolvable charMapping orgMapping md = false := by
        simp [memberResolvable, ho]
      simp [hres]
    | some org_id =>
      cases hc : dictGet charMapping md.character_name with
      | none =>
        rw [ih]
        have hres : memberResolvable charMapping orgMapping md = false := by
          simp [memberResolvable, hc]
        simp [hres]
      | some char_id =>
        have hres : memberResolvable charMapping orgMapping md = true := by
          simp [memberResolvable, ho, hc]
        simp only [ih]
        simp [hres, addOrgMemberRow, mkMemberRowOf, ho, hc,
          Nat.add_comm, Nat.add_assoc, Nat.add_left_comm]

theorem import_organizations_eq (projectId : Nat) (l : List OrgData)
    (charMapping : PyDict Nat) (s : Session) :
    _import_organizations projectId l charMapping s =
      ({ s with
          nextId := (orgPassOne projectId l charMapping s.nextId).2
          pending := { s.pending with organizations :=
            s.pending.organizations ++ orgPassTwo (orgPassOne projectId l charMapping s.nextId).1 (orgBuildMapping (orgPassOne projectId l charMapping s.nextId).1 (visCharacters s) []) } },
       orgBuildMapping (orgPassOne projectId l charMapping s.nextId).1 (visCharacters s) []) := rfl

/-! ### Claims about the validator -/

/-- C6: `validate_import_data` always reports per-category counts equal to the
lengths of the arrays present in the document (absent arrays count 0), and a
document missing the project block is invalid with a non-empty error list
while the statistics are still correct. -/
theorem c6_validation_statistics (data : Document) :
    dictGet (validate_import_data data).statistics "chapters" = some data.chapters.length ∧
    dictGet (validate_import_data data).statistics "characters" = some data.characters.length ∧
    dictGet (validate_import_data data).statistics "outlines" = some data.outlines.length ∧
    dictGet (validate_import_data data).statistics "relationships" = some data.relationships.length ∧
    dictGet (validate_import_data data).statistics "organizations" = some data.organizations.length ∧
    dictGet (validate_import_data data).statistics "organization_members" = some data.organization_members.length ∧
    dictGet (validate_import_data data).statistics "writing_styles" = some data.writing_styles.length ∧
    dictGet (validate_import_data data).statistics "generation_history" = some data.generation_history.length ∧
    (data.project = none →
      (validate_import_data data).valid = false ∧ (validate_import_data data).errors ≠ []) := by
  refine ⟨rfl, rfl, rfl, rfl, rfl, rfl, rfl, rfl, ?_⟩
  intro h
  constructor
  · by_cases hv : data.version = ""
    · simp [validate_import_data, h, hv]
    · by_cases hv2 : data.version = SUPPORTED_VERSION <;>
        simp [validate_import_data, h, hv, hv2]
  · by_cases hv : data.version = ""
    · simp [validate_import_data, h, hv]
    · by_cases hv2 : data.version = SUPPORTED_VERSION <;>
        simp [validate_import_data, h, hv, hv2]

/-- C7: the validator accepts exactly when the version tag is non-empty, the
project block exists and its title is truthy; a version mismatch and empty
chapter or character arrays only add warnings and never block validity. -/
theorem c7_validation_validity (data : Document) :
    ((validate_import_data data).valid = true ↔
      (data.version ≠ "" ∧ ∃ p, data.project = some p ∧ ∃ t, p.title = some t ∧ t ≠ "")) ∧
    (data.version ≠ "" → data.version ≠ SUPPORTED_VERSION →
      ("版本不匹配: 导入文件版本为 " ++ data.version ++ ", 当前支持版本为 " ++ SUPPORTED_VERSION)
        ∈ (validate_import_data data).warnings) ∧
    (data.chapters.length = 0 → "项目没有章节数据" ∈ (validate_import_data data).warnings) ∧
    (data.characters.length = 0 → "项目没有角色数据" ∈ (validate_import_data data).warnings) := by
  have hsv : SUPPORTED_VERSION ≠ "" := by decide
  refine ⟨?_, ?_, ?_, ?_⟩
  · cases hp : data.project with
    | none =>
      by_cases hv : data.version = ""
      · simp [validate_import_data, hp, hv]
      · by_cases hv2 : data.version = SUPPORTED_VERSION <;>
          simp [validate_import_data, hp, hv, hv2, hsv]
    | some p =>
      by_cases ht : truthyStr p.title = true
      · have hex := (truthyStr_iff p.title).mp ht
        by_cases hv : data.version = ""
        · simp [validate_import_data, hp, hv, ht]
        · by_cases hv2 : data.version = SUPPORTED_VERSION <;>
            simp [validate_import_data, hp, hv, hv2, ht, hex, hsv]
      · have ht' : truthyStr p.title = false := by simpa using ht
        have hne : ¬∃ t, p.title = some t ∧ t ≠ "" := by
          rw [← truthyStr_iff]
          simp [ht']
        by_cases hv : data.version = ""
        · simp [validate_import_data, hp, hv, ht', hne]
        · by_cases hv2 : data.version = SUPPORTED_VERSION <;>
            simp [validate_import_data, hp, hv, hv2, ht', hne, hsv]
  · intro hv hv2
    simp [validate_import_data, hv, hv2]
  · intro hc
    by_cases hv : data.version = ""
    · simp [validate_import_data, hv, hc]
    · by_cases hv2 : data.version = SUPPORTED_VERSION <;>
        simp [validate_import_data, hv, hv2, hc]
  · intro hc
    by_cases hv : data.version = ""
    · simp [validate_import_data, hv, hc]
    · by_cases hv2 : data.version = SUPPORTED_VERSION <;>
        simp [validate_import_data, hv, hv2, hc]

/-! ### Concrete fixtures used to instantiate the claims -/

def blankChapter : ChapterData :=
  { title := some "第一章", content := none, summary := none,
    chapter_number := some 1, word_count := none, status := none,
    created_at := none, outline_title := none, sub_index := none,
    expansion_plan := none }

def mkCharData (n : String) : CharacterData :=
  { name := n, age := none, gender := none, is_organization := some true,
    role_type := none, personality := none, background := none,
    appearance := none, traits := none, organization_type := none,
    organization_purpose := none, created_at := none }

def mkOrgData (n : String) (parent : Option String) : OrgData :=
  { character_name := n, parent_org_name := parent, power_level := none,
    member_count := none, location := none, motto := none, color := none }

def demoProjectData : ProjectData :=
  { title := some "测试项目", description := none, theme := none, genre := none,
    target_words := none, current_words := none, status := none,
    world_time_period := none, world_location := none, world_atmosphere := none,
    world_rules := none, chapter_count := none, narrative_perspective := none,
    character_count := none, outline_mode := none, user_id := none,
    created_at := none }

def demoNoProjectDoc : Document :=
  { version := "1.0.0", export_time := none, project := none,
    chapters := [blankChapter], characters := [], outlines := [],
    relationships := [], organizations := [], organization_members := [],
    writing_styles := [], generation_history := [] }

def demoMismatchDoc : Document :=
  { version := "0.9.0", export_time := none, project := some demoProjectData,
    chapters := [], characters := [], outlines := [],
    relationships := [], organizations := [], organization_members := [],
    writing_styles := [], generation_history := [] }

theorem c6_validation_statistics_witness :
    (validate_import_data demoNoProjectDoc).valid = false ∧
    (validate_import_data demoNoProjectDoc).errors ≠ [] ∧
    dictGet (validate_import_data demoNoProjectDoc).statistics "chapters" = some 1 ∧
    dictGet (validate_import_data demoNoProjectDoc).statistics "characters" = some 0 := by
  have h := c6_validation_statistics demoNoProjectDoc
  exact ⟨(h.2.2.2.2.2.2.2.2 rfl).1, (h.2.2.2.2.2.2.2.2 rfl).2, h.1, h.2.1⟩

theorem c7_validation_validity_witness :
    (validate_import_data demoMismatchDoc).valid = true ∧
    ("版本不匹配: 导入文件版本为 0.9.0, 当前支持版本为 1.0.0"
      ∈ (validate_import_data demoMismatchDoc).warnings) ∧
    "项目没有章节数据" ∈ (validate_import_data demoMismatchDoc).warnings ∧
    "项目没有角色数据" ∈ (validate_import_data demoMismatchDoc).warnings := by
  have h := c7_validation_validity demoMismatchDoc
  refine ⟨h.1.mpr ⟨by decide, demoProjectData, rfl, "测试项目", rfl, by decide⟩,
    h.2.1 (by decide) (by decide), h.2.2.1 rfl, h.2.2.2 rfl⟩

/-! ### Claim about relationship import -/

/-- C3: a relationship row is created exactly for the elements whose two
endpoint names both resolve in the character map; unresolvable elements are
silently skipped and the returned count is the number of resolvable
elements, not the raw array length. -/
theorem c3_relationships_resolvable_filter (projectId : Nat)
    (relationshipsData : List RelationshipData) (charMapping : PyDict Nat)
    (s : Session) :
    (_import_relationships projectId relationshipsData charMapping s 0).1.pending.relationships
      = s.pending.relationships ++
        (relationshipsData.filter (relResolvable charMapping)).map (mkRelRowOf projectId charMapping) ∧
    (_import_relationships projectId relationshipsData charMapping s 0).2
      = (relationshipsData.filter (relResolvable charMapping)).length := by
  rw [import_relationships_eq]
  exact ⟨rfl, by omega⟩

/-! ### Duplicate-name behaviour of the character map -/

/-- Index of the last element of `l` whose name is `n`. -/
def lastPos (l : List CharacterData) (n : String) : Option Nat :=
  match l with
  | [] => none
  | c :: rest =>
    match lastPos rest n with
    | some j => some (j + 1)
    | none => if c.name = n then some 0 else none

theorem charMapFrom_get (l : List CharacterData) :
    ∀ (cm : PyDict Nat) (nid : Nat) (n : String),
      dictGet (charMapFrom cm l nid) n =
        match lastPos l n with
        | some j => some (nid + j)
        | none => dictGet cm n := by
  induction l with
  | nil => intro cm nid n; rfl
  | cons c rest ih =>
    intro cm nid n
    rw [charMapFrom, ih]
    cases hl : lastPos rest n with
    | some j => simp [lastPos, hl, Nat.add_assoc, Nat.add_comm 1 j]
    | none =>
      by_cases hc : c.name = n
      · subst hc
        simp [lastPos, hl, dictGet_insert_self]
      · have hne : n ≠ c.name := fun hh => hc hh.symm
        simp [lastPos, hl, hc, dictGet_insert_ne _ _ _ _ hne]

theorem lastPos_eq_none (l : List CharacterData) (n : String) :
    lastPos l n = none ↔ ∀ c ∈ l, c.name ≠ n := by
  induction l with
  | nil => simp [lastPos]
  | cons c rest ih =>
    cases hl : lastPos rest n with
    | some j =>
      simp only [lastPos, hl]
      constructor
      · intro h
        cases h
      · intro h
        have hn : lastPos rest n = none :=
          ih.mpr (fun c' hc' => h c' (List.mem_cons_of_mem _ hc'))
        rw [hl] at hn
        cases hn
    | none =>
      have hrest := ih.mp hl
      by_cases hc : c.name = n
      · simp only [lastPos, hl, if_pos hc]
        constructor
        · intro h
          cases h
        · intro h
          exact absurd hc (h c (List.mem_cons_self c rest))
      · simp only [lastPos, hl, if_neg hc]
        constructor
        · intro _ a ha
          rcases List.mem_cons.mp ha with h1 | h1
          · rw [h1]
            exact hc
          · exact hrest a h1
        · intro _
          trivial

theorem lastPos_iff (l : List CharacterData) (n : String) (j : Nat) :
    lastPos l n = some j ↔
      ∃ hj : j < l.length, (l.get ⟨j, hj⟩).name = n ∧
        ∀ j', (hj' : j' < l.length) → j < j' → (l.get ⟨j', hj'⟩).name ≠ n := by
  induction l generalizing j with
  | nil => simp [lastPos]
  | cons c rest ih =>
    cases hl : lastPos rest n with
    | some i =>
      simp only [lastPos, hl]
      constructor
      · intro h
        have hji : j = i + 1 := by
          cases h
          rfl
        subst hji
        rcases (ih i).mp hl with ⟨hi, hname, hlast⟩
        refine ⟨by simpa using Nat.succ_lt_succ hi, by simpa using hname, ?_⟩
        intro j' hj' hgt
        cases j' with
        | zero => omega
        | succ j'' =>
          have hj'' : j'' < rest.length := by simpa using hj'
          have := hlast j'' hj'' (by omega)
          simpa using this
      · rintro ⟨hj, hname, hlast⟩
        rcases (ih i).mp hl with ⟨hi, hnamei, hlasti⟩
        cases j with
        | zero =>
          exfalso
          exact hlast (i + 1) (by simpa using Nat.succ_lt_succ hi)
            (by omega) (by simpa using hnamei)
        | succ j'' =>
          have hj'' : j'' < rest.length := by simpa using hj
          have hrest : lastPos rest n = some j'' := by
            rw [ih j'']
            refine ⟨hj'', by simpa using hname, ?_⟩
            intro j3 hj3 hgt3
            have := hlast (j3 + 1) (by simpa using Nat.succ_lt_succ hj3) (by omega)
            simpa using this
          rw [hl] at hrest
          cases hrest
          rfl
    | none =>
      have hnone := (lastPos_eq_none rest n).mp hl
      by_cases hc : c.name = n
      · simp only [lastPos, hl, if_pos hc]
        constructor
        · intro h
          have hj0 : j = 0 := by
            cases h
            rfl
          subst hj0
          refine ⟨by simp, by simpa using hc, ?_⟩
          intro j' hj' hgt
          cases j' with
          | zero => omega
          | succ j'' =>
            have hj'' : j'' < rest.length := by simpa using hj'
            simpa using hnone (rest.get ⟨j'', hj''⟩) (rest.get_mem _ _)
        · rintro ⟨hj, hname, hlast⟩
          cases j with
          | zero => rfl
          | succ j'' =>
            exfalso
            have hj'' : j'' < rest.length := by simpa using hj
            exact hnone (rest.get ⟨j'', hj''⟩) (rest.get_mem _ _) (by simpa using hname)
      · simp only [lastPos, hl, if_neg hc]
        constructor
        · intro h
          cases h
        · rintro ⟨hj, hname, hlast⟩
          exfalso
          cases j with
          | zero => exact hc (by simpa using hname)
          | succ j'' =>
            have hj'' : j'' < rest.length := by simpa using hj
            exact hnone (rest.get ⟨j'', hj''⟩) (rest.get_mem _ _) (by simpa using hname)

theorem charRowsFrom_length (projectId : Nat) (l : List CharacterData) :
    ∀ nid, (charRowsFrom projectId l nid).length = l.length := by
  induction l with
  | nil => intro nid; rfl
  | cons c rest ih => intro nid; simp [charRowsFrom, ih]

theorem dictHasKey_eq_mem_keys {α : Type} (d : PyDict α) (k : String) :
    dictHasKey d k = true ↔ k ∈ d.map Prod.fst := by
  rw [dictHasKey_iff]
  simp [List.mem_map]

/-- Key sequence produced by repeated Python-dict insertion. -/
def addNames (ks : List String) (ns : List String) : List String :=
  match ns with
  | [] => ks
  | n :: rest => addNames (if n ∈ ks then ks else ks ++ [n]) rest

theorem charMapFrom_keys (l : List CharacterData) :
    ∀ (cm : PyDict Nat) (nid : Nat),
      (charMapFrom cm l nid).map Prod.fst =
        addNames (cm.map Prod.fst) (l.map CharacterData.name) := by
  induction l with
  | nil => intro cm nid; rfl
  | cons c rest ih =>
    intro cm nid
    rw [charMapFrom, ih, List.map_cons, addNames]
    congr 1
    rw [dictInsert_keys]
    by_cases h : dictHasKey cm c.name = true
    · rw [if_pos h, if_pos ((dictHasKey_eq_mem_keys cm c.name).mp h)]
    · rw [if_neg h, if_neg (fun hm => h ((dictHasKey_eq_mem_keys cm c.name).mpr hm))]

theorem addNames_nodup (ns : List String) :
    ∀ ks : List String, ks.Nodup → (addNames ks ns).Nodup := by
  induction ns with
  | nil => intro ks h; exact h
  | cons n rest ih =>
    intro ks h
    rw [addNames]
    by_cases hm : n ∈ ks
    · rw [if_pos hm]
      exact ih ks h
    · rw [if_neg hm]
      refine ih (ks ++ [n]) ?_
      simp [List.nodup_append, h, hm]

theorem addNames_toFinset (ns : List String) :
    ∀ ks : List String, (addNames ks ns).toFinset = ks.toFinset ∪ ns.toFinset := by
  induction ns with
  | nil => intro ks; simp [addNames]
  | cons n rest ih =>
    intro ks
    rw [addNames]
    by_cases hm : n ∈ ks
    · rw [if_pos hm, ih]
      ext x
      simp only [Finset.mem_union, List.mem_toFinset, List.toFinset_cons, Finset.mem_insert]
      constructor
      · rintro (hx | hx)
        · exact Or.inl hx
        · exact Or.inr (Or.inr hx)
      · rintro (hx | hx | hx)
        · exact Or.inl hx
        · exact Or.inl (hx ▸ hm)
        · exact Or.inr hx
    · rw [if_neg hm, ih]
      ext x
      simp only [Finset.mem_union, List.mem_toFinset, List.toFinset_cons,
        Finset.mem_insert, List.toFinset_append, List.mem_append, List.mem_cons,
        List.not_mem_nil, or_false]
      tauto

theorem charMapFrom_length (l : List CharacterData) (nid : Nat) :
    (charMapFrom [] l nid).length = (l.map CharacterData.name).toFinset.card := by
  have hkeys := charMapFrom_keys l [] nid
  have hnodup : ((charMapFrom [] l nid).map Prod.fst).Nodup := by
    rw [hkeys]
    exact addNames_nodup _ [] List.nodup_nil
  have hfin : ((charMapFrom [] l nid).map Prod.fst).toFinset =
      (l.map CharacterData.name).toFinset := by
    rw [hkeys, addNames_toFinset]
    simp
  have hcard := List.toFinset_card_of_nodup hnodup
  rw [hfin] at hcard
  calc (charMapFrom [] l nid).length
      = ((charMapFrom [] l nid).map Prod.fst).length := (List.length_map _ _).symm
    _ = (l.map CharacterData.name).toFinset.card := hcard.symm

theorem valid_implies_project (data : Document)
    (hval : (validate_import_data data).valid = true) :
    ∃ pd, data.project = some pd := by
  cases hp : data.project with
  | some pd => exact ⟨pd, rfl⟩
  | none =>
    exfalso
    have hfalse : (validate_import_data data).valid = false := by
      by_cases hv : data.version = ""
      · simp [validate_import_data, hp, hv]
      · by_cases hv2 : data.version = SUPPORTED_VERSION <;>
          simp [validate_import_data, hp, hv, hv2]
    rw [hfalse] at hval
    cases hval

/-- C10: duplicate character names create one row per element, but the
name-to-id map keeps only the last-created id for each name, so the reported
character statistic counts distinct names and every later lookup resolves to
the last-created character of that name. -/
theorem c10_duplicate_character_names (projectId : Nat)
    (charactersData : List CharacterData) (s : Session) :
    ((_import_characters projectId charactersData s []).1.pending.characters).length
        = s.pending.characters.length + charactersData.length
    ∧ ((_import_characters projectId charactersData s []).2).length
        = (charactersData.map CharacterData.name).toFinset.card
    ∧ (∀ n i, dictGet ((_import_characters projectId charactersData s []).2) n = some i ↔
        ∃ j, ∃ hj : j < charactersData.length,
          (charactersData.get ⟨j, hj⟩).name = n ∧ i = s.nextId + j ∧
          ∀ j', (hj' : j' < charactersData.length) → j < j' →
            (charactersData.get ⟨j', hj'⟩).name ≠ n)
    ∧ (∀ (s' : Session) (res : ImportResult) (data : Document) (userId : Nat),
        data.characters = charactersData →
        import_project data s userId none = (s', res) → res.success = true →
        dictGet res.statistics "characters"
          = some ((charactersData.map CharacterData.name).toFinset.card)) := by
  refine ⟨?_, ?_, ?_, ?_⟩
  · rw [import_characters_eq]
    simp [charRowsFrom_length]
  · rw [import_characters_eq]
    exact charMapFrom_length charactersData s.nextId
  · intro n i
    rw [import_characters_eq]
    constructor
    · intro h
      rw [charMapFrom_get] at h
      cases hl : lastPos charactersData n with
      | none =>
        rw [hl] at h
        cases h
      | some j =>
        rw [hl] at h
        have hij : i = s.nextId + j := by
          cases h
          rfl
        rcases (lastPos_iff charactersData n j).mp hl with ⟨hj, hname, hlast⟩
        exact ⟨j, hj, hname, hij, hlast⟩
    · rintro ⟨j, hj, hname, hi, hlast⟩
      have hl : lastPos charactersData n = some j :=
        (lastPos_iff charactersData n j).mpr ⟨hj, hname, hlast⟩
      rw [charMapFrom_get, hl, hi]
  · intro s' res data userId hchars hrun hsuccess
    by_cases hval : (validate_import_data data).valid = true
    · obtain ⟨pd, hp⟩ := valid_implies_project data hval
      have hno : ∀ (st : ImportStep), ((none : Option ImportStep) = some st) = False :=
        fun st => eq_false (fun hh => Option.noConfusion hh)
      rw [import_project] at hrun
      rw [if_neg (by simp [hval])] at hrun
      rw [importBody] at hrun
      rw [if_neg (fun hh => Option.noConfusion hh)] at hrun
      rw [hp] at hrun
      simp only [hno, if_false] at hrun
      split at hrun
      · rename_i r heq
        split at heq
        · exact Except.noConfusion heq
        · rw [Except.ok.injEq] at heq
          rw [← heq] at hrun
          rw [Prod.mk.injEq] at hrun
          rw [← hrun.2]
          dsimp only
          rw [dictGet_insert_ne _ _ _ _ (by decide), dictGet_insert_ne _ _ _ _ (by decide),
            dictGet_insert_ne _ _ _ _ (by decide), dictGet_insert_ne _ _ _ _ (by decide),
            dictGet_insert_ne _ _ _ _ (by decide), dictGet_insert_ne _ _ _ _ (by decide),
            dictGet_insert_self]
          rw [hchars]
          simp only [import_characters_eq]
          rw [charMapFrom_length]
      · rw [Prod.mk.injEq] at hrun
        rw [← hrun.2] at hsuccess
        simp at hsuccess
    · rw [import_project] at hrun
      rw [if_pos (by
        cases hb : (validate_import_data data).valid
        · rfl
        · exact absurd hb hval)] at hrun
      rw [Prod.mk.injEq] at hrun
      rw [← hrun.2] at hsuccess
      simp at hsuccess

def emptySession : Session :=
  { committed := emptyStore, pending := emptyStore, nextId := 1 }

def demoDupChars : List CharacterData :=
  [mkCharData "甲", mkCharData "乙", mkCharData "甲"]

def demoDupDoc : Document :=
  { version := "1.0.0", export_time := none, project := some demoProjectData,
    chapters := [], characters := demoDupChars, outlines := [],
    relationships := [], organizations := [], organization_members := [],
    writing_styles := [], generation_history := [] }

theorem c10_duplicate_character_names_witness :
    ((_import_characters 1 demoDupChars emptySession []).1.pending.characters).length = 3 ∧
    ((_import_characters 1 demoDupChars emptySession []).2).length = 2 ∧
    dictGet ((_import_characters 1 demoDupChars emptySession []).2) "甲" = some 3 ∧
    dictGet ((import_project demoDupDoc emptySession 7 none).2).statistics "characters"
      = some 2 := by
  have h := c10_duplicate_character_names 1 demoDupChars emptySession
  refine ⟨h.1, h.2.1, ?_, ?_⟩
  · exact (h.2.2.1 "甲" 3).mpr ⟨2, by decide, by decide, by decide, by decide⟩
  · exact h.2.2.2 (import_project demoDupDoc emptySession 7 none).1
      (import_project demoDupDoc emptySession 7 none).2 demoDupDoc 7 rfl rfl rfl

/-! ### Strict placeholder enforcement in `format_prompt` -/

theorem pyFormatFuel_missing (params : PyDict String) :
    ∀ (fuel : Nat) (l : List Char), l.length ≤ fuel →
      ∀ ks : List String, templateRefsFuel fuel l = some ks →
      (∃ k ∈ ks, dictGet params k = none) →
      ∃ k₀ ∈ ks, dictGet params k₀ = none ∧
        pyFormatFuel params fuel l = .error (.missingKey k₀) := by
  intro fuel
  induction fuel with
  | zero =>
    intro l hl ks href hmiss
    have hnil : l = [] := List.length_eq_zero.mp (Nat.le_zero.mp hl)
    subst hnil
    have hks : ks = [] := by
      cases href
      rfl
    subst hks
    rcases hmiss with ⟨k, hk, _⟩
    cases hk
  | succ n ih =>
    intro l hl ks href hmiss
    cases l with
    | nil =>
      have hks : ks = [] := by
        cases href
        rfl
      subst hks
      rcases hmiss with ⟨k, hk, _⟩
      cases hk
    | cons c rest =>
      rw [templateRefsFuel.eq_def] at href
      rw [pyFormatFuel.eq_def]
      dsimp only at href ⊢
      by_cases hc : c = lbrace
      · rw [if_pos hc] at href ⊢
        cases rest with
        | nil => cases href
        | cons c2 rest2 =>
          dsimp only at href ⊢
          by_cases hc2 : c2 = lbrace
          · rw [if_pos hc2] at href ⊢
            have hlen : rest2.length ≤ n := by
              simp only [List.length_cons] at hl
              omega
            rcases ih rest2 hlen ks href hmiss with ⟨k₀, hk₀, hmk₀, hfmt⟩
            refine ⟨k₀, hk₀, hmk₀, ?_⟩
            rw [hfmt]
          · rw [if_neg hc2] at href ⊢
            cases hsp : splitField (c2 :: rest2) with
            | none =>
              rw [hsp] at href
              cases href
            | some kr =>
              rw [hsp] at href
              dsimp only at href ⊢
              rcases Option.map_eq_some'.mp href with ⟨ks', hks', hkscons⟩
              subst hkscons
              cases hget : dictGet params (String.mk kr.1) with
              | none =>
                dsimp only
                exact ⟨String.mk kr.1, List.mem_cons_self _ _, hget, rfl⟩
              | some v =>
                dsimp only
                have hlen : kr.2.length ≤ n := by
                  have := splitField_length hsp
                  simp only [List.length_cons] at this hl
                  omega
                have hmiss2 : ∃ k ∈ ks', dictGet params k = none := by
                  rcases hmiss with ⟨k, hk, hmk⟩
                  rcases List.mem_cons.mp hk with h1 | h1
                  · rw [h1, hget] at hmk
                    cases hmk
                  · exact ⟨k, h1, hmk⟩
                rcases ih kr.2 hlen ks' hks' hmiss2 with ⟨k₀, hk₀, hmk₀, hfmt⟩
                refine ⟨k₀, List.mem_cons_of_mem _ hk₀, hmk₀, ?_⟩
                rw [hfmt]
      · rw [if_neg hc] at href ⊢
        by_cases hcr : c = rbrace
        · rw [if_pos hcr] at href ⊢
          cases rest with
          | nil => cases href
          | cons c2 rest2 =>
            dsimp only at href ⊢
            by_cases hc2 : c2 = rbrace
            · rw [if_pos hc2] at href ⊢
              have hlen : rest2.length ≤ n := by
                simp only [List.length_cons] at hl
                omega
              rcases ih rest2 hlen ks href hmiss with ⟨k₀, hk₀, hmk₀, hfmt⟩
              refine ⟨k₀, hk₀, hmk₀, ?_⟩
              rw [hfmt]
            · rw [if_neg hc2] at href
              cases href
        · rw [if_neg hcr] at href ⊢
          have hlen : rest.length ≤ n := by
            simp only [List.length_cons] at hl
            omega
          rcases ih rest hlen ks href hmiss with ⟨k₀, hk₀, hmk₀, hfmt⟩
          refine ⟨k₀, hk₀, hmk₀, ?_⟩
          rw [hfmt]

/-- C8: if the template references a placeholder whose key is absent from the
parameter map after genre-strategy injection, `format_prompt` fails with an
error naming an absent referenced key instead of returning a partially
substituted string. -/
theorem c8_format_prompt_missing_key (template : String) (kwargs : PyDict String)
    (ks : List String) (href : templateRefs template.toList = some ks)
    (hmiss : ∃ k ∈ ks, dictGet (injectGenreStrategy kwargs) k = none) :
    ∃ k₀ ∈ ks, dictGet (injectGenreStrategy kwargs) k₀ = none ∧
      format_prompt template kwargs = .error (.missingKey k₀) := by
  rcases pyFormatFuel_missing (injectGenreStrategy kwargs) template.toList.length
      template.toList (Nat.le_refl _) ks href hmiss with ⟨k₀, hk₀, hmk₀, hfmt⟩
  refine ⟨k₀, hk₀, hmk₀, ?_⟩
  rw [format_prompt, pyFormatList, hfmt]

theorem c8_format_prompt_missing_key_witness :
    templateRefs "主题: {theme} 类型: {genre}".toList = some ["theme", "genre"] ∧
    format_prompt "主题: {theme} 类型: {genre}" [("genre", "都市")]
      = .error (.missingKey "theme") := by
  refine ⟨by decide, ?_⟩
  have h := c8_format_prompt_missing_key "主题: {theme} 类型: {genre}"
    [("genre", "都市")] ["theme", "genre"] (by decide)
    ⟨"theme", by decide, by decide⟩
  rcases h with ⟨k₀, hk₀, hmk₀, hfmt⟩
  have hk : k₀ = "theme" := by
    rcases List.mem_cons.mp hk₀ with h1 | h1
    · exact h1
    · exfalso
      have hg : k₀ = "genre" := by
        rcases List.mem_cons.mp h1 with h2 | h2
        · exact h2
        · cases h2
      rw [hg] at hmk₀
      revert hmk₀
      decide
  rw [hk] at hfmt
  exact hfmt

/-! ### Genre strategy injection -/

/-- Modelled from the claim's wording: the keyword occurs case-insensitively
as a substring of the genre (both sides lowercased).  Stated only to compare
with the source's matching, which lowercases the genre alone. -/
def spec_ci_keyword_occurs (kw genre : String) : Bool :=
  listIsSubstr (py_lower kw).toList (py_lower genre).toList

/-- Modelled from the claim's wording: the instruction of the first table
entry one of whose keywords occurs case-insensitively in the genre. -/
def spec_ci_genre_strategy (genre : String) : String :=
  match GENRE_STRATEGIES.find?
      (fun e => e.2.keywords.any (fun kw => spec_ci_keyword_occurs kw genre)) with
  | some e => e.2.instruction
  | none => ""

/-- C9 counterexample: the genre "DND" case-insensitively contains the
configured keyword "DND" of the western_fantasy entry, so the claim predicts
that entry's instruction text; the code lowercases only the genre, the
uppercase keyword never matches, and the injected strategy is empty. -/
theorem c9_genre_case_counterexample :
    spec_ci_keyword_occurs "DND" "DND" = true ∧
    (∃ e ∈ GENRE_STRATEGIES, e.1 = "western_fantasy" ∧
      "DND" ∈ e.2.keywords ∧ e.2.instruction ≠ "") ∧
    spec_ci_genre_strategy "DND" ≠ _get_genre_strategy "DND" ∧
    _get_genre_strategy "DND" = "" ∧
    format_prompt "{genre_strategy}" [("genre", "DND")] = .ok "" := by
  refine ⟨by decide, ⟨GENRE_STRATEGIES.get ⟨4, by decide⟩, by decide, rfl, by decide, by decide⟩,
    by decide, by decide, rfl⟩

theorem genreMatchLoop_eq_find (table : List (String × GenreStrategy)) (gl : String) :
    genreMatchLoop table gl =
      match table.find? (fun e => e.2.keywords.any (fun kw => py_in kw gl)) with
      | some e => e.2.instruction
      | none => "" := by
  induction table with
  | nil => rfl
  | cons e rest ih =>
    by_cases h : e.2.keywords.any (fun kw => py_in kw gl) = true
    · rw [genreMatchLoop, if_pos h]
      simp only [List.find?_cons, h]
    · have h2 : e.2.keywords.any (fun kw => py_in kw gl) = false := by simpa using h
      rw [genreMatchLoop, if_neg h]
      simp only [List.find?_cons, h2]
      exact ih

/-- C9 (amended): the derived strategy is the instruction of the first table
entry one of whose keywords occurs verbatim as a substring of the lowercased
genre (the keywords themselves are not lowercased, so the uppercase keyword
"DND" never matches); with a genre and no caller-supplied strategy the
injection adds exactly that value and touches no other key; a caller-supplied
genre_strategy is never overwritten; a genre matching no entry yields the
empty string with no error. -/
theorem c9_genre_strategy_injection (kwargs : PyDict String) (g : String) :
    (_get_genre_strategy g =
      (match GENRE_STRATEGIES.find?
          (fun e => e.2.keywords.any (fun kw => py_in kw (py_lower g))) with
        | some e => e.2.instruction
        | none => "")) ∧
    (dictGet kwargs "genre" = some g → dictHasKey kwargs "genre_strategy" = false →
      dictGet (injectGenreStrategy kwargs) "genre_strategy"
          = some (_get_genre_strategy g) ∧
      ∀ k, k ≠ "genre_strategy" →
        dictGet (injectGenreStrategy kwargs) k = dictGet kwargs k) ∧
    (dictHasKey kwargs "genre_strategy" = true → injectGenreStrategy kwargs = kwargs) ∧
    ((∀ e ∈ GENRE_STRATEGIES, ∀ kw ∈ e.2.keywords, py_in kw (py_lower g) = false) →
      _get_genre_strategy g = "") := by
  have hchar : _get_genre_strategy g =
      (match GENRE_STRATEGIES.find?
          (fun e => e.2.keywords.any (fun kw => py_in kw (py_lower g))) with
        | some e => e.2.instruction
        | none => "") := by
    by_cases hg : g = ""
    · subst hg
      decide
    · rw [_get_genre_strategy, if_neg hg, genreMatchLoop_eq_find]
  refine ⟨hchar, ?_, ?_, ?_⟩
  · intro hg hs
    have h1 : dictHasKey kwargs "genre" = true := by
      rw [← dictGet_isSome_iff_hasKey, hg]
      rfl
    have hcond : (dictHasKey kwargs "genre" && !dictHasKey kwargs "genre_strategy") = true := by
      rw [h1, hs]
      rfl
    rw [injectGenreStrategy, if_pos hcond, hg]
    simp only [Option.getD_some]
    refine ⟨?_, ?_⟩
    · rw [dictGet_insert_self]
    · intro k hk
      rw [dictGet_insert_ne _ _ _ _ hk]
  · intro hs
    have hcond : (dictHasKey kwargs "genre" && !dictHasKey kwargs "genre_strategy") = false := by
      rw [hs]
      simp
    rw [injectGenreStrategy, if_neg (by rw [hcond]; exact fun hh => Bool.noConfusion hh)]
  · intro hnone
    rw [hchar]
    have hfind : GENRE_STRATEGIES.find?
        (fun e => e.2.keywords.any (fun kw => py_in kw (py_lower g))) = none := by
      rw [List.find?_eq_none]
      intro e he hany
      simp only [List.any_eq_true] at hany
      rcases hany with ⟨kw, hkw, hin⟩
      rw [hnone e he kw hkw] at hin
      cases hin
    rw [hfind]

theorem c9_genre_strategy_injection_witness :
    dictGet (injectGenreStrategy [("genre", "仙侠")]) "genre_strategy"
      = some (_get_genre_strategy "仙侠") ∧
    (∃ e ∈ GENRE_STRATEGIES, e.1 = "eastern_fantasy" ∧
      _get_genre_strategy "仙侠" = e.2.instruction ∧ e.2.instruction ≠ "") ∧
    dictGet (injectGenreStrategy [("genre", "某个无名类型")]) "genre_strategy" = some "" := by
  have h1 := (c9_genre_strategy_injection [("genre", "仙侠")] "仙侠").2.1 (by decide) (by decide)
  have h2 := (c9_genre_strategy_injection [("genre", "某个无名类型")] "某个无名类型").2.1
    (by decide) (by decide)
  have h3 := (c9_genre_strategy_injection [("genre", "某个无名类型")] "某个无名类型").2.2.2
    (by decide)
  refine ⟨h1.1, ⟨GENRE_STRATEGIES.get ⟨5, by decide⟩, by decide, rfl, by decide, by decide⟩, ?_⟩
  rw [h2.1, h3]

/-! ### C1: atomicity of `import_project` -/

theorem importStylesLoop_error_committed (userId : Nat) (l : List WritingStyleData) :
    ∀ (s : Session) (count : Nat) (es : String × Session),
      importStylesLoop userId l s count = .error es → es.2.committed = s.committed := by
  induction l with
  | nil =>
    intro s count es h
    cases h
  | cons w rest ih =>
    intro s count es h
    rw [importStylesLoop] at h
    cases hscal : scalarOneOrNone ((visStyles s).filter
        (fun st => st.user_id == userId && st.name == w.name)) with
    | error e =>
      rw [hscal] at h
      cases h
      rfl
    | ok o =>
      rw [hscal] at h
      cases o with
      | some _ =>
        dsimp only at h
        exact ih s count es h
      | none =>
        dsimp only at h
        exact ih (addStyleRow s (mkStyleRow userId w)) (count + 1) es h

theorem importStylesLoop_ok_committed (userId : Nat) (l : List WritingStyleData) :
    ∀ (s : Session) (count : Nat) (r : Session × Nat),
      importStylesLoop userId l s count = .ok r → r.1.committed = s.committed := by
  induction l with
  | nil =>
    intro s count r h
    cases h
    rfl
  | cons w rest ih =>
    intro s count r h
    rw [importStylesLoop] at h
    cases hscal : scalarOneOrNone ((visStyles s).filter
        (fun st => st.user_id == userId && st.name == w.name)) with
    | error e =>
      rw [hscal] at h
      cases h
    | ok o =>
      rw [hscal] at h
      cases o with
      | some _ =>
        dsimp only at h
        exact ih s count r h
      | none =>
        dsimp only at h
        exact ih (addStyleRow s (mkStyleRow userId w)) (count + 1) r h

theorem import_writing_styles_error_committed (projectId : Nat)
    (l : List WritingStyleData) (s : Session) (es : String × Session)
    (h : _import_writing_styles projectId l s = .error es) :
    es.2.committed = s.committed := by
  rw [_import_writing_styles] at h
  cases hscal : scalarOneOrNone ((visProjects s).filter (fun p => p.id == projectId)) with
  | error e =>
    rw [hscal] at h
    cases h
    rfl
  | ok o =>
    rw [hscal] at h
    cases o with
    | some proj =>
      dsimp only at h
      exact importStylesLoop_error_committed proj.user_id l s 0 es h
    | none =>
      dsimp only at h
      cases h

theorem import_writing_styles_ok_committed (projectId : Nat)
    (l : List WritingStyleData) (s : Session) (r : Session × Nat)
    (h : _import_writing_styles projectId l s = .ok r) :
    r.1.committed = s.committed := by
  rw [_import_writing_styles] at h
  cases hscal : scalarOneOrNone ((visProjects s).filter (fun p => p.id == projectId)) with
  | error e =>
    rw [hscal] at h
    cases h
  | ok o =>
    rw [hscal] at h
    cases o with
    | some proj =>
      dsimp only at h
      exact importStylesLoop_ok_committed proj.user_id l s 0 r h
    | none =>
      dsimp only at h
      cases h
      rfl

def STAT_CATEGORIES : List String :=
  ["characters", "outlines", "chapters", "relationships",
   "organizations", "organization_members", "writing_styles"]

/-- Categories whose statistics are recorded before the named step runs. -/
def stepPrefixLen : ImportStep → Nat
  | .createProject => 0
  | .characters => 0
  | .outlines => 1
  | .chapters => 2
  | .relationships => 3
  | .organizations => 4
  | .orgMembers => 5
  | .writingStyles => 6
  | .commitStep => 7

/-- C1: any exception raised at any step of `import_project` after validation
passes triggers a full rollback — the committed store is unchanged and no
pending row survives — and the call returns a failure result (success false,
no project id) whose statistics hold exactly the categories completed before
the exception, instead of raising to the caller. -/
theorem c1_import_rollback (data : Document) (s : Session) (userId : Nat)
    (step : ImportStep) (hval : (validate_import_data data).valid = true) :
    (import_project data s userId (some step)).1.committed = s.committed ∧
    (import_project data s userId (some step)).1.pending = emptyStore ∧
    (import_project data s userId (some step)).2.success = false ∧
    (import_project data s userId (some step)).2.project_id = none ∧
    ∃ m, ((import_project data s userId (some step)).2.statistics).map Prod.fst
        = STAT_CATEGORIES.take m ∧
      (step ≠ ImportStep.commitStep → m = stepPrefixLen step) := by
  obtain ⟨pd, hp⟩ := valid_implies_project data hval
  have hvf : ¬((validate_import_data data).valid = false) := by simp [hval]
  cases step with
  | createProject =>
    simp only [import_project, if_neg hvf, importBody, hp]
    simp only [Option.some.injEq, reduceCtorEq, if_false, if_true]
    refine ⟨?_, ?_, ?_, ?_, 0, ?_, fun _ => rfl⟩ <;>
      simp [rollbackSession, STAT_CATEGORIES]
  | characters =>
    simp only [import_project, if_neg hvf, importBody, hp]
    simp only [Option.some.injEq, reduceCtorEq, if_false, if_true]
    refine ⟨?_, ?_, ?_, ?_, 0, ?_, fun _ => rfl⟩ <;>
      simp [rollbackSession, createProjectRow, addProjectRow, STAT_CATEGORIES]
  | outlines =>
    simp only [import_project, if_neg hvf, importBody, hp]
    simp only [Option.some.injEq, reduceCtorEq, if_false, if_true]
    refine ⟨?_, ?_, ?_, ?_, 1, ?_, fun _ => rfl⟩ <;>
      simp [rollbackSession, import_characters_eq, createProjectRow, addProjectRow,
        STAT_CATEGORIES, dictInsert, dictHasKey]
  | chapters =>
    simp only [import_project, if_neg hvf, importBody, hp]
    simp only [Option.some.injEq, reduceCtorEq, if_false, if_true]
    refine ⟨?_, ?_, ?_, ?_, 2, ?_, fun _ => rfl⟩ <;>
      simp [rollbackSession, import_characters_eq, import_outlines_eq,
        createProjectRow, addProjectRow, STAT_CATEGORIES, dictInsert, dictHasKey]
  | relationships =>
    simp only [import_project, if_neg hvf, importBody, hp]
    simp only [Option.some.injEq, reduceCtorEq, if_false, if_true]
    refine ⟨?_, ?_, ?_, ?_, 3, ?_, fun _ => rfl⟩ <;>
      simp [rollbackSession, import_characters_eq, import_outlines_eq, import_chapters_eq,
        createProjectRow, addProjectRow, STAT_CATEGORIES, dictInsert, dictHasKey]
  | organizations =>
    simp only [import_project, if_neg hvf, importBody, hp]
    simp only [Option.some.injEq, reduceCtorEq, if_false, if_true]
    refine ⟨?_, ?_, ?_, ?_, 4, ?_, fun _ => rfl⟩ <;>
      simp [rollbackSession, import_characters_eq, import_outlines_eq, import_chapters_eq,
        import_relationships_eq, createProjectRow, addProjectRow,
        STAT_CATEGORIES, dictInsert, dictHasKey]
  | orgMembers =>
    simp only [import_project, if_neg hvf, importBody, hp]
    simp only [Option.some.injEq, reduceCtorEq, if_false, if_true]
    refine ⟨?_, ?_, ?_, ?_, 5, ?_, fun _ => rfl⟩ <;>
      simp [rollbackSession, import_characters_eq, import_outlines_eq, import_chapters_eq,
        import_relationships_eq, import_organizations_eq, createProjectRow, addProjectRow,
        STAT_CATEGORIES, dictInsert, dictHasKey]
  | writingStyles =>
    simp only [import_project, if_neg hvf, importBody, hp]
    simp only [Option.some.injEq, reduceCtorEq, if_false, if_true]
    refine ⟨?_, ?_, ?_, ?_, 6, ?_, fun _ => rfl⟩ <;>
      simp [rollbackSession, import_characters_eq, import_outlines_eq, import_chapters_eq,
        import_relationships_eq, import_organizations_eq, import_org_members_eq,
        createProjectRow, addProjectRow, STAT_CATEGORIES, dictInsert, dictHasKey]
  | commitStep =>
    simp only [import_project, if_neg hvf, importBody, hp]
    simp only [Option.some.injEq, reduceCtorEq, if_false, if_true]
    split
    · rename_i r heq
      exfalso
      split at heq
      · exact Except.noConfusion heq
      · exact Except.noConfusion heq
    · rename_i e heq
      split at heq
      · rename_i es hw
        rw [Except.error.injEq] at heq
        rw [← heq]
        have h1 := import_writing_styles_error_committed _ _ _ _ hw
        refine ⟨?_, rfl, rfl, rfl, 6, rfl, fun hc => absurd rfl hc⟩
        dsimp only [rollbackSession]
        rw [h1]
        simp [import_characters_eq, import_outlines_eq, import_chapters_eq,
          import_relationships_eq, import_organizations_eq, import_org_members_eq,
          createProjectRow, addProjectRow]
      · rename_i st hw
        rw [Except.error.injEq] at heq
        rw [← heq]
        have h1 := import_writing_styles_ok_committed _ _ _ _ hw
        refine ⟨?_, rfl, rfl, rfl, 7, rfl, fun hc => absurd rfl hc⟩
        dsimp only [rollbackSession]
        rw [h1]
        simp [import_characters_eq, import_outlines_eq, import_chapters_eq,
          import_relationships_eq, import_organizations_eq, import_org_members_eq,
          createProjectRow, addProjectRow]

theorem c1_import_rollback_witness :
    (import_project demoDupDoc emptySession 7 (some ImportStep.organizations)).1.committed
        = emptySession.committed ∧
    (import_project demoDupDoc emptySession 7 (some ImportStep.organizations)).1.pending
        = emptyStore ∧
    (import_project demoDupDoc emptySession 7 (some ImportStep.organizations)).2.success = false ∧
    ((import_project demoDupDoc emptySession 7 (some ImportStep.organizations)).2.statistics).map
        Prod.fst = STAT_CATEGORIES.take 4 := by
  have h := c1_import_rollback demoDupDoc emptySession 7 ImportStep.organizations (by decide)
  obtain ⟨m, hkeys, hm⟩ := h.2.2.2.2
  have hm4 : m = 4 := hm (by decide)
  exact ⟨h.1, h.2.1, h.2.2.1, by rw [← hm4]; exact hkeys⟩

/-! ### Two-pass organization import: characterization -/

/-- The parent id pass two assigns for a raw `parent_org_name` value. -/
def orgParentOf (orgMapping : PyDict Nat) (pn : Option String) : Option Nat :=
  match pn with
  | some p => if p ≠ "" then dictGet orgMapping p else none
  | none => none

/-- Source element paired with the finalized row it produces. -/
def orgSpecPairs (projectId : Nat) (l : List OrgData) (cm om : PyDict Nat)
    (nid : Nat) : List (OrgData × OrganizationRow) :=
  match l with
  | [] => []
  | od :: rest =>
    match dictGet cm od.character_name with
    | some cid =>
      (od, { mkOrganizationRow projectId nid cid od with
               parent_org_id := orgParentOf om od.parent_org_name })
        :: orgSpecPairs projectId rest cm om (nid + 1)
    | none => orgSpecPairs projectId rest cm om nid

/-- The rows delivered by the two passes are the finalized spec rows. -/
theorem orgPassTwo_passOne_eq (projectId : Nat) (l : List OrgData)
    (cm om : PyDict Nat) :
    ∀ nid, orgPassTwo (orgPassOne projectId l cm nid).1 om
      = (orgSpecPairs projectId l cm om nid).map Prod.snd := by
  induction l with
  | nil => intro nid; rfl
  | cons od rest ih =>
    intro nid
    rw [orgPassOne, orgSpecPairs]
    cases hres : dictGet cm od.character_name with
    | none => exact ih nid
    | some cid =>
      dsimp only
      rw [List.map_cons, orgPassTwo, List.map_cons]
      have hrow : (match od.parent_org_name with
          | some parent_name =>
            if parent_name ≠ "" then
              match dictGet om parent_name with
              | some parent_id =>
                { mkOrganizationRow projectId nid cid od with parent_org_id := some parent_id }
              | none => mkOrganizationRow projectId nid cid od
            else mkOrganizationRow projectId nid cid od
          | none => mkOrganizationRow projectId nid cid od)
          = { mkOrganizationRow projectId nid cid od with
                parent_org_id := orgParentOf om od.parent_org_name } := by
        cases hpn : od.parent_org_name with
        | none => rfl
        | some p =>
          by_cases hp : p ≠ ""
          · rw [orgParentOf]
            cases hgp : dictGet om p with
            | none => simp [hp, hgp, mkOrganizationRow]
            | some parent_id => simp [hp, hgp]
          · rw [orgParentOf]
            simp [hp, mkOrganizationRow]
      rw [← hrow, ← ih (nid + 1)]
      rfl

/-- The character map is consistent with the store: resolving a mapped id
through the store recovers the mapped name. -/
def CharsConsistent (cm : PyDict Nat) (chars : List CharacterRow) : Prop :=
  ∀ e ∈ cm, (findCharById chars e.2).map CharacterRow.name = some e.1

theorem orgBuildMapping_eq (projectId : Nat) (chars : List CharacterRow)
    (cm om : PyDict Nat) (hcons : CharsConsistent cm chars)
    (l : List OrgData) :
    ∀ (nid : Nat) (acc : PyDict Nat),
      (l.map OrgData.character_name).Nodup →
      (∀ od ∈ l, (dictGet cm od.character_name).isSome = true →
        dictHasKey acc od.character_name = false) →
      orgBuildMapping (orgPassOne projectId l cm nid).1 chars acc
        = acc ++ (orgSpecPairs projectId l cm om nid).map
            (fun t => (t.1.character_name, t.2.id)) := by
  induction l with
  | nil =>
    intro nid acc _ _
    simp [orgPassOne, orgBuildMapping, orgSpecPairs]
  | cons od rest ih =>
    intro nid acc hnd hfresh
    rw [orgPassOne, orgSpecPairs]
    rw [List.map_cons, List.nodup_cons] at hnd
    cases hres : dictGet cm od.character_name with
    | none =>
      exact ih nid acc hnd.2 (fun od2 h2 hs2 => hfresh od2 (List.mem_cons_of_mem _ h2) hs2)
    | some cid =>
      dsimp only
      rw [orgBuildMapping]
      have hmem : (od.character_name, cid) ∈ cm := mem_of_dictGet hres
      have hch := hcons (od.character_name, cid) hmem
      rcases Option.map_eq_some'.mp hch with ⟨ch, hfind, hname⟩
      have hfind2 : findCharById chars cid = some ch := hfind
      dsimp only [mkOrganizationRow]
      rw [hfind2]
      dsimp only
      rw [hname]
      have hhk : dictHasKey acc od.character_name = false :=
        hfresh od (List.mem_cons_self _ _) (by rw [hres]; rfl)
      have hins : dictInsert acc od.character_name nid = acc ++ [(od.character_name, nid)] := by
        rw [dictInsert, if_neg (by rw [hhk]; exact fun hh => Bool.noConfusion hh)]
      rw [hins]
      rw [ih (nid + 1) (acc ++ [(od.character_name, nid)]) hnd.2 ?_]
      · rw [List.map_cons]
        rw [List.append_assoc]
        rfl
      · intro od2 h2 hs2
        have hne : od2.character_name ≠ od.character_name := by
          intro hh
          exact hnd.1 (hh ▸ List.mem_map_of_mem OrgData.character_name h2)
        have h1 : acc.any (fun e => e.1 == od2.character_name) = false :=
          hfresh od2 (List.mem_cons_of_mem _ h2) hs2
        show (acc ++ [(od.character_name, nid)]).any (fun e => e.1 == od2.character_name) = false
        rw [List.any_append, h1]
        simp only [List.any_cons, List.any_nil, Bool.false_or, Bool.or_false, beq_eq_false_iff_ne]
        exact fun hh => hne hh.symm

theorem orgSpecPairs_id_ge (projectId : Nat) (l : List OrgData) (cm om : PyDict Nat) :
    ∀ nid, ∀ t ∈ orgSpecPairs projectId l cm om nid, nid ≤ t.2.id := by
  induction l with
  | nil =>
    intro nid t ht
    cases ht
  | cons od rest ih =>
    intro nid t ht
    rw [orgSpecPairs] at ht
    cases hres : dictGet cm od.character_name with
    | none =>
      rw [hres] at ht
      exact ih nid t ht
    | some cid =>
      rw [hres] at ht
      rcases List.mem_cons.mp ht with h1 | h1
      · rw [h1]
        exact Nat.le_refl nid
      · exact Nat.le_trans (Nat.le_succ nid) (ih (nid + 1) t h1)

theorem orgSpecPairs_ids_lt (projectId : Nat) (l : List OrgData) (cm om : PyDict Nat) :
    ∀ nid, List.Pairwise (· < ·) ((orgSpecPairs projectId l cm om nid).map (fun t => t.2.id)) := by
  induction l with
  | nil =>
    intro nid
    exact List.Pairwise.nil
  | cons od rest ih =>
    intro nid
    rw [orgSpecPairs]
    cases hres : dictGet cm od.character_name with
    | none => exact ih nid
    | some cid =>
      dsimp only
      rw [List.map_cons, List.pairwise_cons]
      refine ⟨?_, ih (nid + 1)⟩
      intro a ha
      rcases List.mem_map.mp ha with ⟨t, ht, hta⟩
      have := orgSpecPairs_id_ge projectId rest cm om (nid + 1) t ht
      rw [← hta]
      calc (mkOrganizationRow projectId nid cid od).id = nid := rfl
        _ < nid + 1 := Nat.lt_succ_self nid
        _ ≤ t.2.id := this

theorem orgSpecPairs_ids_nodup (projectId : Nat) (l : List OrgData) (cm om : PyDict Nat)
    (nid : Nat) :
    ((orgSpecPairs projectId l cm om nid).map (fun t => t.2.id)).Nodup :=
  (orgSpecPairs_ids_lt projectId l cm om nid).imp Nat.ne_of_lt

theorem orgSpecPairs_fields (projectId : Nat) (l : List OrgData) (cm om : PyDict Nat) :
    ∀ nid, ∀ t ∈ orgSpecPairs projectId l cm om nid,
      dictGet cm t.1.character_name = some t.2.character_id ∧
      t.2.parent_org_id = orgParentOf om t.1.parent_org_name := by
  induction l with
  | nil =>
    intro nid t ht
    cases ht
  | cons od rest ih =>
    intro nid t ht
    rw [orgSpecPairs] at ht
    cases hres : dictGet cm od.character_name with
    | none =>
      rw [hres] at ht
      exact ih nid t ht
    | some cid =>
      rw [hres] at ht
      rcases List.mem_cons.mp ht with h1 | h1
      · rw [h1]
        exact ⟨hres, rfl⟩
      · exact ih (nid + 1) t h1

theorem orgSpecPairs_fst (projectId : Nat) (l : List OrgData) (cm om : PyDict Nat) :
    ∀ nid, (orgSpecPairs projectId l cm om nid).map Prod.fst
      = l.filter (fun od => (dictGet cm od.character_name).isSome) := by
  induction l with
  | nil => intro nid; rfl
  | cons od rest ih =>
    intro nid
    rw [orgSpecPairs]
    cases hres : dictGet cm od.character_name with
    | none =>
      have hf : ((dictGet cm od.character_name).isSome = true) = False := by
        rw [hres]
        simp
      rw [List.filter_cons]
      simp only [hres, Option.isSome_none, Bool.false_eq_true, if_false]
      exact ih nid
    | some cid =>
      rw [List.filter_cons]
      simp only [hres, Option.isSome_some, if_true]
      rw [List.map_cons, ih (nid + 1)]

/-- Name-level view of the imported organization graph: for a character name,
`none` when no organization was created under it, otherwise the owning
character name of its assigned parent organization (if any). -/
def orgResultParent (rows : List OrganizationRow) (om : PyDict Nat)
    (n : String) : Option (Option String) :=
  match dictGet om n with
  | none => none
  | some oid =>
    match rows.find? (fun r => r.id == oid) with
    | none => some none
    | some r =>
      match r.parent_org_id with
      | none => some none
      | some pid => some ((om.find? (fun e => e.2 == pid)).map Prod.fst)

/-- The claim's order-free description of the same view: an organization is
created exactly for an element with a resolvable `character_name`, and its
parent is the named parent when that names a created organization. -/
def orgParentSpec (l : List OrgData) (cm : PyDict Nat) (n : String) :
    Option (Option String) :=
  match l.find? (fun od => od.character_name == n) with
  | none => none
  | some od =>
    if (dictGet cm od.character_name).isSome then
      some (match od.parent_org_name with
        | some p =>
          if p ≠ "" &&
              l.any (fun od2 => od2.character_name == p &&
                (dictGet cm od2.character_name).isSome) then some p
          else none
        | none => none)
    else none

theorem org_result_parent_spec (projectId : Nat) (l : List OrgData)
    (cm : PyDict Nat) (s : Session)
    (hnd : (l.map OrgData.character_name).Nodup)
    (hcons : CharsConsistent cm (visCharacters s))
    (hpend : s.pending.organizations = []) :
    ∀ n, orgResultParent
        (_import_organizations projectId l cm s).1.pending.organizations
        (_import_organizations projectId l cm s).2 n
      = orgParentSpec l cm n := by
  have hfresh : ∀ od ∈ l, (dictGet cm od.character_name).isSome = true →
      dictHasKey ([] : PyDict Nat) od.character_name = false := fun _ _ _ => rfl
  have homDef : (_import_organizations projectId l cm s).2
      = orgBuildMapping (orgPassOne projectId l cm s.nextId).1 (visCharacters s) [] := rfl
  set om := (_import_organizations projectId l cm s).2 with homSet
  have hOm : om = (orgSpecPairs projectId l cm om s.nextId).map
      (fun t => (t.1.character_name, t.2.id)) := by
    conv_lhs => rw [homDef]
    rw [orgBuildMapping_eq projectId (visCharacters s) cm om hcons l
      s.nextId [] hnd hfresh, List.nil_append]
  have hRows : (_import_organizations projectId l cm s).1.pending.organizations
      = (orgSpecPairs projectId l cm om s.nextId).map Prod.snd := by
    rw [import_organizations_eq]
    dsimp only
    rw [hpend, List.nil_append, orgPassTwo_passOne_eq, ← homDef]
  set pairs := orgSpecPairs projectId l cm om s.nextId with hpairsSet
  have hkeys : om.map Prod.fst
      = (l.filter (fun od => (dictGet cm od.character_name).isSome)).map
          OrgData.character_name := by
    rw [hOm, List.map_map]
    have hcomp : (Prod.fst ∘ fun t : OrgData × OrganizationRow =>
        (t.1.character_name, t.2.id)) = OrgData.character_name ∘ Prod.fst := rfl
    rw [hcomp, ← List.map_map, orgSpecPairs_fst]
  have hkeysNodup : (om.map Prod.fst).Nodup := by
    rw [hkeys]
    exact List.Nodup.sublist (List.Sublist.map OrgData.character_name
      (List.filter_sublist l)) hnd
  have hvalsNodup : (om.map Prod.snd).Nodup := by
    rw [hOm, List.map_map]
    have hcomp : (Prod.snd ∘ fun t : OrgData × OrganizationRow =>
        (t.1.character_name, t.2.id)) = fun t : OrgData × OrganizationRow => t.2.id := rfl
    rw [hcomp]
    exact orgSpecPairs_ids_nodup projectId l cm om s.nextId
  intro n
  rw [hRows]
  cases hget : dictGet om n with
  | none =>
    rw [orgResultParent, hget]
    rw [orgParentSpec]
    cases hfind : l.find? (fun od => od.character_name == n) with
    | none => rfl
    | some od =>
      dsimp only
      have hodn : od.character_name = n := by simpa using List.find?_some hfind
      have hodmem := List.mem_of_find?_eq_some hfind
      by_cases hres : (dictGet cm od.character_name).isSome = true
      · exfalso
        have hmemf : od ∈ l.filter (fun od2 => (dictGet cm od2.character_name).isSome) := by
          rw [List.mem_filter]
          exact ⟨hodmem, hres⟩
        have hkey : od.character_name ∈ om.map Prod.fst := by
          rw [hkeys]
          exact List.mem_map_of_mem _ hmemf
        rcases List.mem_map.mp hkey with ⟨e, he, hen⟩
        exact (dictGet_eq_none_iff om n).mp hget e he (by rw [hen, hodn])
      · have hres2 : (dictGet cm od.character_name).isSome = false := by
          simpa using hres
        rw [hres2]
        rfl
  | some oid =>
    have hmem := mem_of_dictGet hget
    rw [hOm] at hmem
    rcases List.mem_map.mp hmem with ⟨t, ht, hteq⟩
    have htn : t.1.character_name = n := congrArg Prod.fst hteq
    have hti : t.2.id = oid := congrArg Prod.snd hteq
    have hfields := orgSpecPairs_fields projectId l cm om s.nextId t ht
    have hrowsNodup : ((pairs.map Prod.snd).map OrganizationRow.id).Nodup := by
      rw [List.map_map]
      have hcomp : (OrganizationRow.id ∘ Prod.snd)
          = fun t : OrgData × OrganizationRow => t.2.id := rfl
      rw [hcomp]
      exact orgSpecPairs_ids_nodup projectId l cm om s.nextId
    have hfindrow : (pairs.map Prod.snd).find? (fun r => r.id == oid) = some t.2 := by
      apply find?_eq_some_of_unique (List.mem_map_of_mem Prod.snd ht) (by simp [hti])
      intro y hy hpy
      exact eq_of_mem_map_nodup hrowsNodup hy (List.mem_map_of_mem Prod.snd ht)
        (by rw [show OrganizationRow.id y = y.id from rfl, hti]; simpa using hpy)
    have htmem : t.1 ∈ l := by
      have : t.1 ∈ pairs.map Prod.fst := List.mem_map_of_mem Prod.fst ht
      rw [orgSpecPairs_fst] at this
      exact List.mem_of_mem_filter this
    have hfindl : l.find? (fun od => od.character_name == n) = some t.1 := by
      apply find?_eq_some_of_unique htmem (by simp [htn])
      intro y hy hpy
      refine eq_of_mem_map_nodup hnd hy htmem ?_
      rw [show OrgData.character_name y = y.character_name from rfl]
      rw [show OrgData.character_name t.1 = t.1.character_name from rfl, htn]
      simpa using hpy
    have hressome : (dictGet cm t.1.character_name).isSome = true := by
      rw [hfields.1]
      rfl
    rw [orgResultParent, hget]
    dsimp only
    rw [hfindrow]
    dsimp only
    rw [orgParentSpec, hfindl]
    dsimp only
    rw [if_pos hressome, hfields.2]
    cases hpn : t.1.parent_org_name with
    | none => rfl
    | some p =>
      dsimp only
      by_cases hp : p = ""
      · subst hp
        rw [orgParentOf]
        simp
      · rw [orgParentOf, if_pos hp]
        cases hgp : dictGet om p with
        | none =>
          have hany : l.any (fun od2 => od2.character_name == p &&
              (dictGet cm od2.character_name).isSome) = false := by
            rw [List.any_eq_false]
            intro od2 hod2
            intro hcontra
            rw [Bool.and_eq_true] at hcontra
            have hname2 : od2.character_name = p := by simpa using hcontra.1
            have hmemf2 : od2 ∈ l.filter (fun od3 => (dictGet cm od3.character_name).isSome) := by
              rw [List.mem_filter]
              exact ⟨hod2, hcontra.2⟩
            have hkey2 : od2.character_name ∈ om.map Prod.fst := by
              rw [hkeys]
              exact List.mem_map_of_mem _ hmemf2
            rcases List.mem_map.mp hkey2 with ⟨e, he, hen⟩
            exact (dictGet_eq_none_iff om p).mp hgp e he (by rw [hen, hname2])
          rw [hany]
          simp
        | some pid =>
          dsimp only
          have hpmem := mem_of_dictGet hgp
          have hfindinv : om.find? (fun e => e.2 == pid) = some (p, pid) := by
            apply find?_eq_some_of_unique hpmem (by simp)
            intro y hy hpy
            exact eq_of_mem_map_nodup hvalsNodup hy hpmem (by simpa using hpy)
          have hany : l.any (fun od2 => od2.character_name == p &&
              (dictGet cm od2.character_name).isSome) = true := by
            rw [List.any_eq_true]
            have hpmem2 := hpmem
            rw [hOm] at hpmem2
            rcases List.mem_map.mp hpmem2 with ⟨t2, ht2, ht2eq⟩
            have ht2n : t2.1.character_name = p := congrArg Prod.fst ht2eq
            have ht2mem : t2.1 ∈ l := by
              have : t2.1 ∈ pairs.map Prod.fst := List.mem_map_of_mem Prod.fst ht2
              rw [orgSpecPairs_fst] at this
              exact List.mem_of_mem_filter this
            refine ⟨t2.1, ht2mem, ?_⟩
            rw [Bool.and_eq_true]
            refine ⟨by simp [ht2n], ?_⟩
            rw [(orgSpecPairs_fields projectId l cm om s.nextId t2 ht2).1]
            rfl
          rw [hfindinv, hany]
          simp
          exact hp

theorem orgParentSpec_perm (l₁ l₂ : List OrgData) (cm : PyDict Nat)
    (hperm : l₁.Perm l₂) (hnd : (l₁.map OrgData.character_name).Nodup) :
    ∀ n, orgParentSpec l₁ cm n = orgParentSpec l₂ cm n := by
  intro n
  have hnd₂ : (l₂.map OrgData.character_name).Nodup :=
    ((hperm.map OrgData.character_name).nodup_iff).mp hnd
  have hfind : l₁.find? (fun od => od.character_name == n)
      = l₂.find? (fun od => od.character_name == n) := by
    cases hf : l₁.find? (fun od => od.character_name == n) with
    | none =>
      rw [List.find?_eq_none] at hf
      rw [eq_comm, List.find?_eq_none]
      intro x hx
      exact hf x (hperm.mem_iff.mpr hx)
    | some od =>
      have hpv := List.find?_some hf
      have hm := List.mem_of_find?_eq_some hf
      rw [eq_comm]
      apply find?_eq_some_of_unique (hperm.mem_iff.mp hm) hpv
      intro y hy hpy
      refine eq_of_mem_map_nodup hnd₂ hy (hperm.mem_iff.mp hm) ?_
      have h1 : y.character_name = n := by simpa using hpy
      have h2 : od.character_name = n := by simpa using hpv
      rw [show OrgData.character_name y = y.character_name from rfl, h1,
        show OrgData.character_name od = od.character_name from rfl, h2]
  have hany : ∀ p : String,
      l₁.any (fun od2 => od2.character_name == p && (dictGet cm od2.character_name).isSome)
        = l₂.any (fun od2 => od2.character_name == p && (dictGet cm od2.character_name).isSome) := by
    intro p
    rw [Bool.eq_iff_iff, List.any_eq_true, List.any_eq_true]
    constructor
    · rintro ⟨x, hx, hpx⟩
      exact ⟨x, hperm.mem_iff.mp hx, hpx⟩
    · rintro ⟨x, hx, hpx⟩
      exact ⟨x, hperm.mem_iff.mpr hx, hpx⟩
  rw [orgParentSpec, orgParentSpec, hfind]
  simp only [hany]

/-- C2: two-pass organization import is order independent — for any
permutation of the organizations array (with distinct owning-character
names), every element whose `character_name` resolves is created, every
created organization whose `parent_org_name` names a created organization
gets that parent, and the name-level parent view of both runs equals the
same order-free specification. -/
theorem c2_org_parent_order_independence (projectId₁ projectId₂ : Nat)
    (l₁ l₂ : List OrgData) (cm : PyDict Nat) (s₁ s₂ : Session)
    (hperm : l₁.Perm l₂)
    (hnd : (l₁.map OrgData.character_name).Nodup)
    (hc₁ : CharsConsistent cm (visCharacters s₁))
    (hc₂ : CharsConsistent cm (visCharacters s₂))
    (hp₁ : s₁.pending.organizations = [])
    (hp₂ : s₂.pending.organizations = []) :
    (∀ n, orgResultParent
        (_import_organizations projectId₁ l₁ cm s₁).1.pending.organizations
        (_import_organizations projectId₁ l₁ cm s₁).2 n = orgParentSpec l₁ cm n) ∧
    (∀ n, orgResultParent
        (_import_organizations projectId₂ l₂ cm s₂).1.pending.organizations
        (_import_organizations projectId₂ l₂ cm s₂).2 n = orgParentSpec l₁ cm n) := by
  have hnd₂ : (l₂.map OrgData.character_name).Nodup :=
    ((hperm.map OrgData.character_name).nodup_iff).mp hnd
  refine ⟨org_result_parent_spec projectId₁ l₁ cm s₁ hnd hc₁ hp₁, fun n => ?_⟩
  rw [org_result_parent_spec projectId₂ l₂ cm s₂ hnd₂ hc₂ hp₂ n]
  exact (orgParentSpec_perm l₁ l₂ cm hperm hnd n).symm

def demoCharRow (n : String) (i : Nat) : CharacterRow :=
  mkCharacterRow 1 i (mkCharData n)

def demoCm : PyDict Nat := [("甲", 1), ("乙", 2), ("丙", 3)]

def demoOrgSession : Session :=
  { committed := { emptyStore with
      characters := [demoCharRow "甲" 1, demoCharRow "乙" 2, demoCharRow "丙" 3] }
    pending := emptyStore
    nextId := 4 }

def demoOrgsABC : List OrgData :=
  [mkOrgData "甲" none, mkOrgData "乙" (some "甲"), mkOrgData "丙" (some "乙")]

def demoOrgsCBA : List OrgData :=
  [mkOrgData "丙" (some "乙"), mkOrgData "乙" (some "甲"), mkOrgData "甲" none]

theorem c2_org_parent_order_independence_witness :
    orgResultParent
        (_import_organizations 1 demoOrgsCBA demoCm demoOrgSession).1.pending.organizations
        (_import_organizations 1 demoOrgsCBA demoCm demoOrgSession).2 "丙"
      = some (some "乙") ∧
    orgResultParent
        (_import_organizations 1 demoOrgsABC demoCm demoOrgSession).1.pending.organizations
        (_import_organizations 1 demoOrgsABC demoCm demoOrgSession).2 "丙"
      = some (some "乙") ∧
    orgResultParent
        (_import_organizations 1 demoOrgsCBA demoCm demoOrgSession).1.pending.organizations
        (_import_organizations 1 demoOrgsCBA demoCm demoOrgSession).2 "甲"
      = some none ∧
    orgResultParent
        (_import_organizations 1 demoOrgsABC demoCm demoOrgSession).1.pending.organizations
        (_import_organizations 1 demoOrgsABC demoCm demoOrgSession).2 "甲"
      = some none := by
  have h := c2_org_parent_order_independence 1 1 demoOrgsCBA demoOrgsABC demoCm
    demoOrgSession demoOrgSession (List.reverse_perm demoOrgsABC) (by decide)
    (by
      intro e he
      simp only [demoCm, List.mem_cons, List.not_mem_nil, or_false] at he
      rcases he with h | h | h <;> subst h <;> rfl)
    (by
      intro e he
      simp only [demoCm, List.mem_cons, List.not_mem_nil, or_false] at he
      rcases he with h | h | h <;> subst h <;> rfl) rfl rfl
  exact ⟨h.1 "丙", h.2 "丙", h.1 "甲", h.2 "甲"⟩

/-! ### C4: unresolved cross-references -/

theorem import_organizations_rows (projectId : Nat) (l : List OrgData)
    (cm : PyDict Nat) (s : Session) :
    (_import_organizations projectId l cm s).1.pending.organizations
      = s.pending.organizations
        ++ (orgSpecPairs projectId l cm
              ((_import_organizations projectId l cm s).2) s.nextId).map Prod.snd := by
  show s.pending.organizations
      ++ orgPassTwo (orgPassOne projectId l cm s.nextId).1
          ((_import_organizations projectId l cm s).2) = _
  rw [orgPassTwo_passOne_eq]

def demoGhostDoc : Document :=
  { version := "1.0.0", export_time := none, project := some demoProjectData,
    chapters := [], characters := [mkCharData "总会"], outlines := [],
    relationships := [], organizations := [mkOrgData "总会" (some "幽灵")],
    organization_members := [], writing_styles := [], generation_history := [] }

/-- C4 counterexample: the organizations array of `demoGhostDoc` carries a
single organization whose `parent_org_name` (幽灵) names no created
organization, yet the import succeeds, the organizations statistic equals the
raw array length (not lower), and the committed organization row exists with
an empty parent reference — the row is created, not skipped. -/
theorem c4_unresolved_parent_counterexample :
    ((import_project demoGhostDoc emptySession 7 none).2).success = true ∧
    dictGet ((import_project demoGhostDoc emptySession 7 none).2).statistics
        "organizations" = some demoGhostDoc.organizations.length ∧
    demoGhostDoc.organizations = [mkOrgData "总会" (some "幽灵")] ∧
    ((import_project demoGhostDoc emptySession 7 none).1.committed.organizations).length = 1 ∧
    (∀ r ∈ (import_project demoGhostDoc emptySession 7 none).1.committed.organizations,
      r.parent_org_id = none) := by
  decide

/-- C4 (amended): an unresolvable membership endpoint or an unresolvable
organization owner silently skips the row, reflected only in a created count
equal to the number of resolvable elements; but an organization whose
`parent_org_name` does not resolve is still created (with an empty parent
reference) and still counted. -/
theorem c4_unresolved_reference_policy (projectId : Nat) (l : List OrgData)
    (lm : List OrgMemberData) (cm om2 : PyDict Nat) (s s2 : Session) :
    ((_import_organization_members lm cm om2 s2 0).1.pending.organization_members
      = s2.pending.organization_members
        ++ (lm.filter (memberResolvable cm om2)).map (mkMemberRowOf cm om2)) ∧
    ((_import_organization_members lm cm om2 s2 0).2
      = (lm.filter (memberResolvable cm om2)).length) ∧
    (((_import_organizations projectId l cm s).1.pending.organizations).length
      = s.pending.organizations.length
        + (l.filter (fun od => (dictGet cm od.character_name).isSome)).length) ∧
    (∀ od ∈ l, ∀ cid, dictGet cm od.character_name = some cid →
      ∀ p, od.parent_org_name = some p →
      dictGet (_import_organizations projectId l cm s).2 p = none →
      ∃ r ∈ (_import_organizations projectId l cm s).1.pending.organizations,
        r.character_id = cid ∧ r.parent_org_id = none) := by
  refine ⟨?_, ?_, ?_, ?_⟩
  · rw [import_org_members_eq]
  · rw [import_org_members_eq]
    exact Nat.zero_add _
  · rw [import_organizations_rows, List.length_append, List.length_map]
    have hlen := congrArg List.length
      (orgSpecPairs_fst projectId l cm ((_import_organizations projectId l cm s).2) s.nextId)
    rw [List.length_map] at hlen
    rw [hlen]
  · intro od hod cid hcid p hp hnone
    have hsome : (dictGet cm od.character_name).isSome = true := by
      rw [hcid]; rfl
    have hmem : od ∈ l.filter (fun od => (dictGet cm od.character_name).isSome) :=
      List.mem_filter.mpr ⟨hod, hsome⟩
    rw [← orgSpecPairs_fst projectId l cm
      ((_import_organizations projectId l cm s).2) s.nextId] at hmem
    obtain ⟨t, ht, ht1⟩ := List.mem_map.mp hmem
    have hfields := orgSpecPairs_fields projectId l cm
      ((_import_organizations projectId l cm s).2) s.nextId t ht
    refine ⟨t.2, ?_, ?_, ?_⟩
    · rw [import_organizations_rows]
      exact List.mem_append_right _ (List.mem_map.mpr ⟨t, ht, rfl⟩)
    · have h1 := hfields.1
      rw [ht1, hcid] at h1
      exact (Option.some.injEq _ _).mp h1.symm
    · have h2 := hfields.2
      rw [ht1, hp] at h2
      rw [h2, orgParentOf]
      by_cases hpe : p ≠ ""
      · rw [if_pos hpe, hnone]
      · rw [if_neg hpe]

theorem c4_unresolved_reference_policy_witness :
    ∃ r ∈ (_import_organizations 1 [mkOrgData "总会" (some "幽灵")]
        [("总会", 1)] emptySession).1.pending.organizations,
      r.character_id = 1 ∧ r.parent_org_id = none := by
  exact (c4_unresolved_reference_policy 1 [mkOrgData "总会" (some "幽灵")] []
      [("总会", 1)] [] emptySession emptySession).2.2.2
    (mkOrgData "总会" (some "幽灵")) (by decide) 1 (by decide) "幽灵" rfl (by decide)

/-! ### C5: writing-style dedup idempotence -/

theorem filter_mkStyle_singleton (u : Nat) (w : WritingStyleData) :
    ∀ l : List WritingStyleData, (l.map WritingStyleData.name).Nodup → w ∈ l →
      (l.map (mkStyleRow u)).filter
        (fun st => st.user_id == u && st.name == w.name) = [mkStyleRow u w] := by
  intro l
  induction l with
  | nil => intro _ h; cases h
  | cons w0 rest ih =>
    intro hnd hmem
    rw [List.map_cons] at hnd
    have hnotin := (List.nodup_cons.mp hnd).1
    have hndrest := (List.nodup_cons.mp hnd).2
    rw [List.map_cons, List.filter_cons]
    rcases List.mem_cons.mp hmem with heq | hmem2
    · subst heq
      have hp : ((mkStyleRow u w).user_id == u && (mkStyleRow u w).name == w.name)
          = true := by
        simp [mkStyleRow]
      rw [if_pos hp]
      have hrest : (rest.map (mkStyleRow u)).filter
          (fun st => st.user_id == u && st.name == w.name) = [] := by
        rw [List.filter_eq_nil_iff]
        intro st hst
        obtain ⟨w2, hw2, rfl⟩ := List.mem_map.mp hst
        simp only [mkStyleRow, Bool.and_eq_true, beq_iff_eq, not_and]
        intro _ hc
        exact absurd (hc ▸ List.mem_map_of_mem WritingStyleData.name hw2) hnotin
      rw [hrest]
    · have hne : (mkStyleRow u w0).name ≠ w.name := by
        intro hc
        have : w0.name = w.name := hc
        exact hnotin (this ▸ List.mem_map_of_mem WritingStyleData.name hmem2)
      have hp : ((mkStyleRow u w0).user_id == u && (mkStyleRow u w0).name == w.name)
          = false := by
        simp [hne]
      rw [hp]
      simp only [Bool.false_eq_true, if_false]
      exact ih hndrest hmem2

theorem importStylesLoop_skip_eq (userId : Nat) (l : List WritingStyleData) :
    ∀ (s : Session) (count : Nat),
      (∀ w ∈ l, ∃ st, (visStyles s).filter
        (fun st0 => st0.user_id == userId && st0.name == w.name) = [st]) →
      importStylesLoop userId l s count = .ok (s, count) := by
  induction l with
  | nil => intro s count _; rfl
  | cons w rest ih =>
    intro s count hone
    obtain ⟨st, hst⟩ := hone w (List.mem_cons_self w rest)
    rw [importStylesLoop, hst]
    exact ih s count (fun w2 hw2 => hone w2 (List.mem_cons_of_mem _ hw2))

theorem importStylesLoop_fresh_eq (userId : Nat) (l : List WritingStyleData) :
    ∀ (s : Session) (count : Nat),
      (∀ w ∈ l, (visStyles s).filter
        (fun st => st.user_id == userId && st.name == w.name) = []) →
      (l.map WritingStyleData.name).Nodup →
      importStylesLoop userId l s count
        = .ok ({ s with pending := { s.pending with
            writing_styles := s.pending.writing_styles ++ l.map (mkStyleRow userId) } },
           count + l.length) := by
  induction l with
  | nil =>
    intro s count _ _
    simp [importStylesLoop]
  | cons w rest ih =>
    intro s count hfresh hnd
    rw [List.map_cons] at hnd
    have hnotin := (List.nodup_cons.mp hnd).1
    have hndrest := (List.nodup_cons.mp hnd).2
    have h1 : ∀ w2 ∈ rest, (visStyles (addStyleRow s (mkStyleRow userId w))).filter
        (fun st => st.user_id == userId && st.name == w2.name) = [] := by
      intro w2 hw2
      have hvis : visStyles (addStyleRow s (mkStyleRow userId w))
          = visStyles s ++ [mkStyleRow userId w] := by
        simp [visStyles, addStyleRow]
      have hne : w.name ≠ w2.name := by
        intro hc
        exact hnotin (hc ▸ List.mem_map_of_mem WritingStyleData.name hw2)
      have hbe : (w.name == w2.name) = false := beq_eq_false_iff_ne.mpr hne
      rw [hvis, List.filter_append, hfresh w2 (List.mem_cons_of_mem _ hw2)]
      simp [List.filter, mkStyleRow, hbe]
    rw [importStylesLoop, hfresh w (List.mem_cons_self w rest)]
    dsimp only [scalarOneOrNone]
    have hstep := ih (addStyleRow s (mkStyleRow userId w)) (count + 1) h1 hndrest
    rw [hstep]
    simp [addStyleRow, List.append_assoc, Nat.add_comm, Nat.add_assoc,
      Nat.add_left_comm]

theorem visStyles_commit (s : Session) : visStyles (commitSession s) = visStyles s := by
  simp [visStyles, commitSession, emptyStore]

theorem visProjects_commit (s : Session) :
    visProjects (commitSession s) = visProjects s := by
  simp [visProjects, commitSession, emptyStore]

/-- C5: writing-style import is deduplicated per (owning user, style name):
once the owning project row is resolved, a style is created only when no
visible style with the same (user, name) pair exists; hence, when the source
has no name collisions and the user has no pre-existing styles under those
names, the first import creates all of them (count equals the input length)
and re-importing the same document for the same user after commit creates
none (count 0) and leaves the stored styles unchanged. -/
theorem c5_writing_styles_idempotent (projectId : Nat) (proj : ProjectRow)
    (l : List WritingStyleData) (s : Session)
    (hproj : (visProjects s).filter (fun p => p.id == projectId) = [proj])
    (hnd : (l.map WritingStyleData.name).Nodup)
    (hfresh : ∀ w ∈ l, (visStyles s).filter
        (fun st => st.user_id == proj.user_id && st.name == w.name) = []) :
    ∃ s₁, _import_writing_styles projectId l s = .ok (s₁, l.length) ∧
      s₁.pending.writing_styles
        = s.pending.writing_styles ++ l.map (mkStyleRow proj.user_id) ∧
      s₁.committed = s.committed ∧
      _import_writing_styles projectId l (commitSession s₁)
        = .ok (commitSession s₁, 0) := by
  have hA := importStylesLoop_fresh_eq proj.user_id l s 0 hfresh hnd
  refine ⟨{ s with pending := { s.pending with
      writing_styles := s.pending.writing_styles ++ l.map (mkStyleRow proj.user_id) } },
    ?_, rfl, rfl, ?_⟩
  · rw [_import_writing_styles, hproj]
    dsimp only [scalarOneOrNone]
    rw [hA, Nat.zero_add]
  · rw [_import_writing_styles]
    have hp2 : (visProjects (commitSession { s with pending := { s.pending with
        writing_styles := s.pending.writing_styles ++ l.map (mkStyleRow proj.user_id) } })).filter
          (fun p => p.id == projectId) = [proj] := by
      rw [visProjects_commit]
      exact hproj
    rw [hp2]
    dsimp only [scalarOneOrNone]
    apply importStylesLoop_skip_eq
    intro w hw
    refine ⟨mkStyleRow proj.user_id w, ?_⟩
    rw [visStyles_commit]
    have hv : visStyles { s with pending := { s.pending with
        writing_styles := s.pending.writing_styles ++ l.map (mkStyleRow proj.user_id) } }
          = visStyles s ++ l.map (mkStyleRow proj.user_id) := by
      simp [visStyles]
    rw [hv, List.filter_append, hfresh w hw,
      filter_mkStyle_singleton proj.user_id w l hnd hw]
    rfl

def demoStyleProj : ProjectRow :=
  { id := 1, user_id := 7, title := some "测试项目", description := none,
    theme := none, genre := none, target_words := none, status := none,
    world_time_period := none, world_location := none, world_atmosphere := none,
    world_rules := none, chapter_count := none, narrative_perspective := none,
    character_count := none, outline_mode := none, current_words := 0,
    wizard_step := 4, wizard_status := "completed" }

def demoStyleSession : Session :=
  { committed := { emptyStore with projects := [demoStyleProj] }
    pending := emptyStore
    nextId := 2 }

def demoStyles : List WritingStyleData :=
  [{ name := "简洁", style_type := none, preset_id := none, description := none,
     prompt_content := none, order_index := none },
   { name := "华丽", style_type := none, preset_id := none, description := none,
     prompt_content := none, order_index := none }]

theorem c5_writing_styles_idempotent_witness :
    ∃ s₁, _import_writing_styles 1 demoStyles demoStyleSession = .ok (s₁, 2) ∧
      s₁.pending.writing_styles
        = demoStyleSession.pending.writing_styles ++ demoStyles.map (mkStyleRow 7) ∧
      s₁.committed = demoStyleSession.committed ∧
      _import_writing_styles 1 demoStyles (commitSession s₁)
        = .ok (commitSession s₁, 0) := by
  exact c5_writing_styles_idempotent 1 demoStyleProj demoStyles demoStyleSession
    (by decide) (by decide) (by decide)
